import Mathlib

/-!
Verification development for `generate_planilha.py`, the monthly attendance
workbook generator. The Python source is shallowly embedded: worksheets are
total grids of cell values, the stateful helpers become worksheet-to-worksheet
functions, and the `datetime`/`calendar` library calls are reproduced on a
proleptic Gregorian calendar over `Nat`.
-/

namespace GeraPlanilha

/-! ## Basic data: dates, cell values, worksheets -/

/-- A calendar date, modelling a Python `datetime` at midnight
(`datetime.combine(current, datetime.min.time())`). -/
structure Date where
  year : Nat
  month : Nat
  day : Nat
deriving DecidableEq, Repr

/-- A spreadsheet cell value as read through openpyxl: `empty` models Python
`None` (a cell that is absent or holds no value), `str` a text cell, `dt` a
`datetime`-typed cell. -/
inductive CellValue where
  | empty
  | str (s : String)
  | dt (d : Date)
deriving DecidableEq, Repr

/-- A worksheet: a total grid of cell values (1-indexed rows and columns)
together with the extents openpyxl reports as `max_row`/`max_column`.
Real sheets read `None` outside the extents; theorems that depend on that
carry it as an explicit hypothesis. -/
structure Worksheet where
  cells : Nat → Nat → CellValue
  maxRow : Nat
  maxCol : Nat

/-- `HEADER_ROW_INDEX = 5`. -/
def headerRowIndex : Nat := 5

/-- Assigning `ws.cell(row, column).value = v`. -/
def setCell (ws : Worksheet) (r c : Nat) (v : CellValue) : Worksheet :=
  { ws with cells := fun r' c' => if r' = r ∧ c' = c then v else ws.cells r' c' }

/-- `ws.insert_rows(idx, amount)`: every row at index `idx` or below shifts
down by `amount`; the freed rows are blank. -/
def insertRows (ws : Worksheet) (idx amount : Nat) : Worksheet :=
  { cells := fun r c =>
      if r < idx then ws.cells r c
      else if r < idx + amount then CellValue.empty
      else ws.cells (r - amount) c,
    maxRow := ws.maxRow + amount,
    maxCol := ws.maxCol }

/-- `ws.insert_cols(idx)`: every column at index `idx` or to its right shifts
right by one; the freed column is blank. -/
def insertCols (ws : Worksheet) (idx : Nat) : Worksheet :=
  { cells := fun r c =>
      if c < idx then ws.cells r c
      else if c = idx then CellValue.empty
      else ws.cells r (c - 1),
    maxRow := ws.maxRow,
    maxCol := ws.maxCol + 1 }

/-! ## Character-list string helpers

Python string primitives (`in`, `endswith`, `strip`, `lower`) are modelled on
`List Char` so that every use is kernel-computable. -/

/-- `s` begins with `pat` (list version of Python `startswith`). -/
def listStarts : List Char → List Char → Bool
  | _, [] => true
  | [], _ :: _ => false
  | c :: s, p :: pat => c == p && listStarts s pat

/-- `s` ends with `pat` (Python `endswith`). -/
def listEnds (s pat : List Char) : Bool :=
  listStarts s.reverse pat.reverse

/-- `pat` occurs contiguously inside `s` (Python `pat in s`). -/
def listHas : List Char → List Char → Bool
  | s, pat =>
    if listStarts s pat then true
    else match s with
      | [] => false
      | _ :: rest => listHas rest pat

/-- Python `pat in s` on strings. -/
def strHas (s pat : String) : Bool := listHas s.data pat.data

/-- Python `s.endswith(pat)`. -/
def strEnds (s pat : String) : Bool := listEnds s.data pat.data

/-- Python `s.startswith(pat)`. -/
def strStarts (s pat : String) : Bool := listStarts s.data pat.data

/-- Python `s.strip()` (whitespace on both ends; we use the ASCII whitespace
class, which covers the sheets' content). -/
def pyStrip (s : String) : String :=
  String.mk (((s.data.dropWhile Char.isWhitespace).reverse.dropWhile
    Char.isWhitespace).reverse)

/-! ## `normalize` (lines 86-89) -/

/-- One-character NFKD decomposition, as `unicodedata.normalize("NFKD", ·)`
acts on the repertoire these sheets use: ASCII characters are NFKD-invariant;
accented Latin letters decompose into the base letter followed by a combining
mark (which the subsequent ASCII filter drops); other characters are kept. -/
def nfkdChar (c : Char) : List Char :=
  if c.toNat < 128 then [c]
  else if c = 'á' ∨ c = 'à' ∨ c = 'â' ∨ c = 'ã' ∨ c = 'ä' then ['a', '́']
  else if c = 'Á' ∨ c = 'À' ∨ c = 'Â' ∨ c = 'Ã' ∨ c = 'Ä' then ['A', '́']
  else if c = 'é' ∨ c = 'è' ∨ c = 'ê' ∨ c = 'ë' then ['e', '́']
  else if c = 'É' ∨ c = 'È' ∨ c = 'Ê' ∨ c = 'Ë' then ['E', '́']
  else if c = 'í' ∨ c = 'ì' ∨ c = 'î' ∨ c = 'ï' then ['i', '́']
  else if c = 'Í' ∨ c = 'Ì' ∨ c = 'Î' ∨ c = 'Ï' then ['I', '́']
  else if c = 'ó' ∨ c = 'ò' ∨ c = 'ô' ∨ c = 'õ' ∨ c = 'ö' then ['o', '́']
  else if c = 'Ó' ∨ c = 'Ò' ∨ c = 'Ô' ∨ c = 'Õ' ∨ c = 'Ö' then ['O', '́']
  else if c = 'ú' ∨ c = 'ù' ∨ c = 'û' ∨ c = 'ü' then ['u', '́']
  else if c = 'Ú' ∨ c = 'Ù' ∨ c = 'Û' ∨ c = 'Ü' then ['U', '́']
  else if c = 'ç' then ['c', '̧']
  else if c = 'Ç' then ['C', '̧']
  else [c]

/-- Python `str.lower` restricted to ASCII; the input has already been
ASCII-filtered when this runs, where the two agree. -/
def pyLower (c : Char) : Char :=
  if 65 ≤ c.toNat ∧ c.toNat ≤ 90 then Char.ofNat (c.toNat + 32) else c

/-- `normalize` on an actual string:
`unicodedata.normalize("NFKD", text).encode("ascii", "ignore").decode("ascii").lower()`. -/
def normalizeStr (s : String) : String :=
  String.mk ((((s.data.map nfkdChar).flatten).filter
    (fun c => c.toNat < 128)).map pyLower)

/-- `normalize(text)` (lines 86-89): non-string input yields the empty
string. -/
def normalize (v : CellValue) : String :=
  match v with
  | .str s => normalizeStr s
  | _ => ""

/-! ## Calendar: `month_sundays` (lines 92-99) -/

/-- Gregorian leap year, as `calendar.isleap`. -/
def isLeapYear (y : Nat) : Bool :=
  y % 4 == 0 && (y % 100 != 0 || y % 400 == 0)

/-- `calendar.monthrange(year, month)[1]`: days in the month. -/
def daysInMonth (y m : Nat) : Nat :=
  if m = 2 then (if isLeapYear y then 29 else 28)
  else if m = 4 ∨ m = 6 ∨ m = 9 ∨ m = 11 then 30
  else 31

/-- Days in the months of `y` strictly before month `m`. -/
def daysBeforeMonth (y m : Nat) : Nat :=
  ((List.range' 1 (m - 1)).map (daysInMonth y)).sum

/-- Proleptic Gregorian ordinal of a date, as Python `date.toordinal`
(0001-01-01 is day 1). -/
def toOrdinal (y m d : Nat) : Nat :=
  365 * (y - 1) + (y - 1) / 4 - (y - 1) / 100 + (y - 1) / 400
    + daysBeforeMonth y m + d

/-- Python `date.weekday()`: 0 = Monday, …, 6 = Sunday (`calendar.SUNDAY`);
0001-01-01 was a Monday. -/
def weekday (y m d : Nat) : Nat :=
  (toOrdinal y m d - 1) % 7

/-- `month_sundays(year, month)` (lines 92-99): the dates of the month whose
weekday is Sunday, in day order (the Python loop appends for ascending
`day`). -/
def monthSundays (y m : Nat) : List Date :=
  ((List.range' 1 (daysInMonth y m)).filter (fun d => weekday y m d == 6)).map
    (fun d => Date.mk y m d)

example : weekday 2024 3 3 = 6 := by decide

example : monthSundays 2024 3 =
    [⟨2024, 3, 3⟩, ⟨2024, 3, 10⟩, ⟨2024, 3, 17⟩, ⟨2024, 3, 24⟩, ⟨2024, 3, 31⟩] := by
  decide

/-! ## `parse_birth` (lines 102-119) -/

/-- `re.findall(r"\d+", text)`: the maximal runs of consecutive decimal
digits, left to right. `cur` accumulates the current run in reverse. -/
def digitRunsAux : List Char → List Char → List (List Char)
  | [], cur => if cur = [] then [] else [cur.reverse]
  | c :: rest, cur =>
    if c.isDigit then digitRunsAux rest (c :: cur)
    else if cur = [] then digitRunsAux rest []
    else cur.reverse :: digitRunsAux rest []

def digitRuns (l : List Char) : List (List Char) := digitRunsAux l []

/-- Python `int` on a run of decimal digits. -/
def digitsToNat (l : List Char) : Nat :=
  l.foldl (fun a c => 10 * a + (c.toNat - 48)) 0

/-- `parse_birth(value)` (lines 102-119). -/
def parseBirth (v : CellValue) : Option (Nat × Nat) :=
  match v with
  | .empty => none
  | .dt d => some (d.day, d.month)
  | .str s =>
    let text := pyStrip s
    if text = "" ∨ text = "-" ∨ text = "--" then none
    else
      match digitRuns text.data with
      | n1 :: n2 :: _ =>
        let day := digitsToNat n1
        let month := digitsToNat n2
        if 1 ≤ day ∧ day ≤ 31 ∧ 1 ≤ month ∧ month ≤ 12 then some (day, month)
        else none
      | _ => none

example : parseBirth (.str "15/03/1990") = some (15, 3) := by decide
example : parseBirth (.str "--") = none := by decide

/-! ## `find_header_columns` (lines 122-132) and `collect_students`
(lines 135-162) -/

/-- `find_header_columns(ws)`: the first header-row column whose normalized
text contains "nome", and the first containing "nasc" (the Python loop scans
columns left to right and keeps the first match for each). -/
def findHeaderColumns (ws : Worksheet) : Option Nat × Option Nat :=
  ((List.range' 1 ws.maxCol).find? (fun c =>
      match ws.cells headerRowIndex c with
      | .str s => strHas (normalizeStr s) "nome"
      | _ => false),
   (List.range' 1 ws.maxCol).find? (fun c =>
      match ws.cells headerRowIndex c with
      | .str s => strHas (normalizeStr s) "nasc"
      | _ => false))

/-- The section keywords of line 152. -/
def sectionKeywords : List String :=
  ["present", "ausent", "total", "visit", "assunto", "anivers"]

/-- The stop test of line 152: the normalized name ends with ":" or contains
one of the section keywords. -/
def isSectionText (normalized : String) : Bool :=
  strEnds normalized ":" || sectionKeywords.any (fun tok => strHas normalized tok)

/-- The `while` loop of `collect_students`, scanning from `row` with the
current empty-row streak. `fuel` is a structural bound; the loop itself stops
at `max_row`, and every caller passes fuel exceeding the remaining rows, so
the cutoff is never the reason the recursion ends. -/
def scanStudents (ws : Worksheet) (nameCol birthCol : Nat) :
    Nat → Nat → Nat → List (String × Option (Nat × Nat))
  | 0, _, _ => []
  | fuel + 1, row, streak =>
    if row ≤ ws.maxRow then
      match ws.cells row nameCol with
      | .str raw =>
        if pyStrip raw = "" then
          if streak + 1 ≥ 3 then []
          else scanStudents ws nameCol birthCol fuel (row + 1) (streak + 1)
        else if isSectionText (normalizeStr (pyStrip raw)) then []
        else
          (pyStrip raw, parseBirth (ws.cells row birthCol)) ::
            scanStudents ws nameCol birthCol fuel (row + 1) 0
      | _ =>
        if streak + 1 ≥ 3 then []
        else scanStudents ws nameCol birthCol fuel (row + 1) (streak + 1)
    else []

/-- `collect_students(ws, name_col, birth_col)` (lines 135-162). -/
def collectStudents (ws : Worksheet) (nameCol birthCol : Nat) :
    List (String × Option (Nat × Nat)) :=
  scanStudents ws nameCol birthCol (ws.maxRow + 1) (headerRowIndex + 1) 0

/-! ## The date-column aligner: `ensure_column_style` (lines 165-177),
`ensure_date_columns` (lines 180-206), `clear_extra_header_columns`
(lines 209-217), `update_header_dates` (lines 220-234) -/

/-- `ensure_column_style` copies the column width and the per-cell styles
only; on the value model it merely materialises cells in the destination
column, growing `max_column` when the destination lies beyond it. -/
def ensureColumnStyle (ws : Worksheet) (_srcCol destCol : Nat) : Worksheet :=
  { ws with maxCol := max ws.maxCol destCol }

/-- Whether a cell holds a `datetime` (`isinstance(cell.value, datetime)`). -/
def isDateCell (v : CellValue) : Bool :=
  match v with
  | .dt _ => true
  | _ => false

/-- The `existing_cols` scan of `ensure_date_columns` (line 181): header-row
columns currently holding a `datetime`, ascending (`range'` is already
sorted, matching the `sorted(...)`). -/
def headerDateCols (ws : Worksheet) : List Nat :=
  (List.range' 1 ws.maxCol).filter (fun c => isDateCell (ws.cells headerRowIndex c))

/-- One iteration of the gap-fill `for` loop (lines 188-195) for target
column `col`: if `col` is absent from `existing_cols`, insert a column there,
renumber `existing_cols`, record `col`, re-sort, and clone style from the
column to its left. -/
def fillGapStep (st : Worksheet × List Nat) (col : Nat) : Worksheet × List Nat :=
  if col ∈ st.2 then st
  else
    let ws := insertCols st.1 col
    let existing := ((st.2.map (fun c => if col ≤ c then c + 1 else c)) ++ [col]).insertionSort (· ≤ ·)
    (ensureColumnStyle ws (col - 1) col, existing)

/-- The append-columns `while` loop (lines 199-203). `fuel` is a structural
bound: each pass grows `existing` by one and the loop runs only while
`existing.length < needLen`, so `needLen` passes always suffice. The
`getLastD 0` reads `existing_cols[-1]`; the call site always passes a
nonempty list. -/
def appendLoop (needLen : Nat) : Nat → Worksheet → List Nat → Worksheet × List Nat
  | 0, ws, existing => (ws, existing)
  | fuel + 1, ws, existing =>
    if needLen > existing.length then
      let insertCol := existing.getLastD 0 + 1
      let ws := insertCols ws insertCol
      let ws := ensureColumnStyle ws (insertCol - 1) insertCol
      appendLoop needLen fuel ws (existing ++ [insertCol])
    else (ws, existing)

/-- `ensure_date_columns(ws, sundays)` (lines 180-206). `existing_cols[0]` is
read with `headD 0`; the list is nonempty past the early return. -/
def ensureDateCols (ws : Worksheet) (sundays : List Date) : Worksheet × List Nat :=
  let existingCols := headerDateCols ws
  if existingCols = [] then (ws, [])
  else
    let firstCol := existingCols.headD 0
    let neededCols := List.range' firstCol sundays.length
    let st := neededCols.foldl fillGapStep (ws, existingCols)
    let st2 := appendLoop neededCols.length neededCols.length st.1 st.2
    (st2.1, neededCols)

/-- `clear_extra_header_columns(ws, target_cols)` (lines 209-217): blank
header cells right of the block until the first blank cell. openpyxl reads
`None` beyond `max_column`, so on any real sheet the scan stops by
`max_column + 1`; the model bounds it there. `target_cols` is nonempty at
the call site, so `foldl max 0` is Python's `max(target_cols)`. -/
def clearExtraHeaderCols (ws : Worksheet) (targetCols : List Nat) : Worksheet :=
  let maxTarget := targetCols.foldl max 0
  let toClear := (List.range' (maxTarget + 1) (ws.maxCol + 1 - maxTarget)).takeWhile
    (fun c => !(ws.cells headerRowIndex c == CellValue.empty
                || ws.cells headerRowIndex c == CellValue.str ""))
  toClear.foldl (fun w c => setCell w headerRowIndex c (CellValue.str "")) ws

/-- The date-writing loop of `update_header_dates` (lines 224-227), writing
`vals` along `row` at consecutive columns from `col0`; `target_cols` is the
contiguous run `first, first+1, …`, so `enumerate(target_cols)` visits
exactly these columns. -/
def writeRowVals (ws : Worksheet) (row col0 : Nat) : List CellValue → Worksheet
  | [] => ws
  | v :: rest => writeRowVals (setCell ws row col0 v) row (col0 + 1) rest

/-- `update_header_dates(ws, sundays)` (lines 220-234). -/
def updateHeaderDates (ws : Worksheet) (sundays : List Date) : Worksheet × List Nat :=
  let st := ensureDateCols ws sundays
  match st.2 with
  | [] => (st.1, [])
  | firstCol :: _ =>
    let ws1 := writeRowVals st.1 headerRowIndex firstCol (sundays.map CellValue.dt)
    let ws2 := clearExtraHeaderCols ws1 st.2
    let lastCol := st.2.getLastD 0
    let prevCol := if st.2.length ≥ 2 then (st.2[st.2.length - 2]?).getD 0 else lastCol
    (ensureColumnStyle ws2 prevCol lastCol, st.2)

/-! ## The label-block synchronizer: `find_label_cell` (lines 237-243),
`update_section_dates` (lines 246-270), `update_birthdays` (lines 273-305) -/

/-- `find_label_cell(ws, label)`: the first cell (rows outer, columns inner,
as `iter_rows`) whose normalized text equals the normalized label. -/
def findLabelCell (ws : Worksheet) (label : String) : Option (Nat × Nat) :=
  (List.range' 1 ws.maxRow).findSome? (fun r =>
    ((List.range' 1 ws.maxCol).find? (fun c =>
        match ws.cells r c with
        | .str s => normalizeStr s == normalizeStr label
        | _ => false)).map (fun c => (r, c)))

/-- The boundary scan shared verbatim by `update_section_dates`
(lines 252-259) and `update_birthdays` (lines 279-286): the first row below
`labelRow` in column `labelCol` whose text normalizes to a label (ends with
":") different from `stopNorm`; `max_row + 1` when the loop runs off the
sheet. (The Python loop leaves `next_row = labelRow + 1` when
`labelRow ≥ max_row`; label cells come from `find_label_cell`, so
`labelRow ≤ max_row` and the two agree.) -/
def sectionEndRow (ws : Worksheet) (labelRow labelCol : Nat) (stopNorm : String) : Nat :=
  ((List.range' (labelRow + 1) (ws.maxRow - labelRow)).find? (fun r =>
      match ws.cells r labelCol with
      | .str s => strEnds (normalizeStr s) ":" && normalizeStr s != stopNorm
      | _ => false)).getD (ws.maxRow + 1)

/-- A `for idx, v in enumerate(vals)` write loop down column `col` starting
at `row0`; also used for the cleanup loops, which write `""` to each row of
`range(label_row + 1 + len(values), next_row)`. -/
def writeColVals (ws : Worksheet) (col row0 : Nat) : List CellValue → Worksheet
  | [] => ws
  | v :: rest => writeColVals (setCell ws row0 col v) col (row0 + 1) rest

/-- `update_section_dates(ws, label, sundays)` (lines 246-270). -/
def updateSectionDates (ws : Worksheet) (label : String) (sundays : List Date) : Worksheet :=
  match findLabelCell ws label with
  | none => ws
  | some (labelRow, labelCol) =>
    let nextRow := sectionEndRow ws labelRow labelCol (normalizeStr label)
    let needed := sundays.length
    let available := nextRow - labelRow - 1
    let st :=
      if available < needed then
        (insertRows ws nextRow (needed - available), nextRow + (needed - available))
      else (ws, nextRow)
    let ws1 := writeColVals st.1 labelCol (labelRow + 1) (sundays.map CellValue.dt)
    writeColVals ws1 labelCol (labelRow + 1 + needed)
      (List.replicate (st.2 - (labelRow + 1 + needed)) (CellValue.str ""))

/-- Python `f"{n:02d}"`. -/
def pad2 (n : Nat) : String :=
  (if n < 10 then "0" else "") ++ toString n

/-- The lexicographic sort key of line 297: `(item[0], item[1])`, i.e.
(day, normalized name), tuples compared lexicographically. -/
def entryLe (a b : Nat × String × String) : Prop :=
  a.1 < b.1 ∨ (a.1 = b.1 ∧ a.2.1 ≤ b.2.1)

instance : DecidableRel entryLe := fun a b => by
  unfold entryLe; infer_instance

/-- The filtering loop of `update_birthdays` (lines 288-296): each student
with a parsed birth in the target month yields `(day, sort_key, name)`. -/
def birthdayEntries (students : List (String × Option (Nat × Nat)))
    (targetMonth : Nat) : List (Nat × String × String) :=
  students.filterMap (fun p =>
    match p.2 with
    | none => none
    | some (day, month) =>
      if month = targetMonth then some (day, normalizeStr p.1, p.1) else none)

/-- Line 297: `birthday_entries.sort(key=lambda item: (item[0], item[1]))`.
Python `list.sort` is stable; `insertionSort` is a stable sort for the same
total preorder, and any two stable sorts agree elementwise. -/
def birthdayEntriesSorted (students : List (String × Option (Nat × Nat)))
    (targetMonth : Nat) : List (Nat × String × String) :=
  (birthdayEntries students targetMonth).insertionSort entryLe

/-- Line 298: the formatted display strings
`f"{name} - {day:02d}/{target_month:02d}"`. -/
def birthdayStrings (students : List (String × Option (Nat × Nat)))
    (targetMonth : Nat) : List String :=
  (birthdayEntriesSorted students targetMonth).map
    (fun e => e.2.2 ++ " - " ++ pad2 e.1 ++ "/" ++ pad2 targetMonth)

/-- `update_birthdays(ws, students, target_month)` (lines 273-305). -/
def updateBirthdays (ws : Worksheet)
    (students : List (String × Option (Nat × Nat))) (targetMonth : Nat) : Worksheet :=
  match findLabelCell ws "ANIVERSARIANTES:" with
  | none => ws
  | some (labelRow, labelCol) =>
    let nextRow := sectionEndRow ws labelRow labelCol "aniversariantes:"
    let available := max 0 (nextRow - labelRow - 1)
    let birthdays := birthdayStrings students targetMonth
    let st :=
      if available < birthdays.length then
        (insertRows ws nextRow (birthdays.length - available),
         nextRow + (birthdays.length - available))
      else (ws, nextRow)
    let ws1 := writeColVals st.1 labelCol (labelRow + 1) (birthdays.map CellValue.str)
    writeColVals ws1 labelCol (labelRow + 1 + birthdays.length)
      (List.replicate (st.2 - (labelRow + 1 + birthdays.length)) (CellValue.str ""))

/-! ## `update_month_label` (lines 308-313), `process_sheet` (lines 316-327),
and the workbook loop of `generate_planilha` (lines 338-342) -/

/-- `update_month_label(ws, month_name)`: every cell in rows 1-3 whose
normalized text contains "mes" is replaced with `"Mês: <month_name>"`. The
Python loop mutates cell by cell; since a write only affects later reads of
the same cell and the match is re-evaluated on yet-unvisited cells, the
one-shot override below is the same function on grids. -/
def updateMonthLabel (ws : Worksheet) (monthName : String) : Worksheet :=
  { ws with cells := fun r c =>
      if 1 ≤ r ∧ r ≤ 3 ∧ 1 ≤ c ∧ c ≤ ws.maxCol ∧
          (match ws.cells r c with
           | .str s => strHas (normalizeStr s) "mes"
           | _ => false) = true then
        CellValue.str ("Mês: " ++ monthName)
      else ws.cells r c }

/-- `process_sheet(ws, sundays, month_name, target_month)` (lines 316-327). -/
def processSheet (ws : Worksheet) (sundays : List Date) (monthName : String)
    (targetMonth : Nat) : Worksheet :=
  let wsA := updateMonthLabel ws monthName
  let st := updateHeaderDates wsA sundays
  if st.2 = [] then st.1
  else
    match findHeaderColumns st.1 with
    | (some nameCol, some birthCol) =>
      let students := collectStudents st.1 nameCol birthCol
      let wsB := updateSectionDates st.1 "ASSUNTO DAS AULAS:" sundays
      let wsC := updateSectionDates wsB "VISITAS:" sundays
      updateBirthdays wsC students targetMonth
    | _ => st.1

/-- The per-workbook loop of `generate_planilha` (lines 338-342): drop every
sheet whose normalized title starts with "copia", process the rest. -/
def processWorkbook (sheets : List (String × Worksheet)) (sundays : List Date)
    (monthName : String) (targetMonth : Nat) : List (String × Worksheet) :=
  (sheets.filter (fun s => !(strStarts (normalizeStr s.1) "copia"))).map
    (fun s => (s.1, processSheet s.2 sundays monthName targetMonth))

/-! ## Configuration: `load_config` (lines 61-83) and the output directory
(lines 344-348)

Paths are modelled as an absolute flag plus a component list; `pathlib`
drops empty and `"."` components, `/` replaces the left side when the right
is absolute, and `resolve()` folds away `".."` (the model takes the base
directory to be already absolute, as a config-file path is once opened). -/

structure PyPath where
  absolute : Bool
  comps : List String
deriving DecidableEq, Repr

/-- Split a character list at `/`. -/
def splitSlashAux : List Char → List Char → List String
  | [], cur => [String.mk cur.reverse]
  | c :: rest, cur =>
    if c = '/' then String.mk cur.reverse :: splitSlashAux rest []
    else splitSlashAux rest (c :: cur)

/-- `pathlib.Path(s)`. -/
def parsePath (s : String) : PyPath :=
  { absolute := strStarts s "/",
    comps := (splitSlashAux s.data []).filter (fun c => c ≠ "" ∧ c ≠ ".") }

/-- `a / b` on paths. -/
def joinPath (a b : PyPath) : PyPath :=
  if b.absolute then b else { absolute := a.absolute, comps := a.comps ++ b.comps }

/-- `p.resolve()` (no symlinks in the model): fold away `".."`. -/
def resolvePath (p : PyPath) : PyPath :=
  { absolute := p.absolute,
    comps := p.comps.foldl (fun acc c => if c = ".." then acc.dropLast else acc ++ [c]) [] }

/-- `p.parent`. -/
def parentPath (p : PyPath) : PyPath :=
  { absolute := p.absolute, comps := p.comps.dropLast }

/-- A JSON scalar as `json.load` can deliver it for a config field. -/
inductive Json where
  | jnull
  | jbool (b : Bool)
  | jnum (n : Int)
  | jstr (s : String)
deriving DecidableEq, Repr

/-- The configuration document: each field either absent or a JSON value. -/
structure ConfigJson where
  source_file : Option Json
  target_year : Option Json
  target_month : Option Json
  output_directory : Option Json
deriving DecidableEq, Repr

/-- The Python exceptions `load_config` can surface. -/
inductive PyErr where
  | valueError (msg : String)
  | typeError
deriving DecidableEq, Repr

/-- Python `int(s)` on a string: optional sign, then decimal digits. -/
def parseIntStr (s : String) : Option Int :=
  match (pyStrip s).data with
  | [] => none
  | '-' :: rest =>
    if rest ≠ [] ∧ rest.all Char.isDigit then some (-(digitsToNat rest : Int)) else none
  | '+' :: rest =>
    if rest ≠ [] ∧ rest.all Char.isDigit then some ((digitsToNat rest : Int)) else none
  | l =>
    if l.all Char.isDigit then some ((digitsToNat l : Int)) else none

/-- Python `int(value)` on a JSON scalar: numbers pass through, numeric
strings parse, booleans coerce, `None` raises `TypeError` (modelled as
`none`). -/
def pyIntOf (v : Json) : Option Int :=
  match v with
  | .jnum n => some n
  | .jstr s => parseIntStr s
  | .jbool b => some (if b then 1 else 0)
  | .jnull => none

/-- `pathlib.Path(value)`: anything but a string raises `TypeError`
(modelled as `none`). -/
def pyPathOf (v : Json) : Option String :=
  match v with
  | .jstr s => some s
  | _ => none

/-- `PORTUGUESE_MONTHS` (lines 35-48), as a key lookup. -/
def portugueseMonths (m : Int) : Option String :=
  if m = 1 then some "Janeiro" else if m = 2 then some "Fevereiro"
  else if m = 3 then some "Março" else if m = 4 then some "Abril"
  else if m = 5 then some "Maio" else if m = 6 then some "Junho"
  else if m = 7 then some "Julho" else if m = 8 then some "Agosto"
  else if m = 9 then some "Setembro" else if m = 10 then some "Outubro"
  else if m = 11 then some "Novembro" else if m = 12 then some "Dezembro"
  else none

structure Config where
  source_file : PyPath
  target_year : Int
  target_month : Int
  output_directory : PyPath
deriving DecidableEq, Repr

/-- `load_config(path)` (lines 61-83) on an already-parsed JSON document.
The `try` block evaluates `Path(data["source_file"])`,
`int(data["target_year"])`, `int(data["target_month"])` in order; a
`KeyError` is re-raised as `ValueError("Configuração incompleta…")` and a
`TypeError`/`ValueError` — including the `TypeError` of `Path` on a
non-string — as `ValueError("Ano e mês precisam ser numéricos.")`. The
`output_directory` default is `"."`, resolved against the config file's
directory; a non-string `output_directory` raises an uncaught `TypeError`
(line 80 sits outside the `try`). -/
def loadConfig (configPath : PyPath) (data : ConfigJson) : Except PyErr Config :=
  match data.source_file with
  | none => .error (.valueError "Configuração incompleta: campo ausente source_file.")
  | some sv =>
    match pyPathOf sv with
    | none => .error (.valueError "Ano e mês precisam ser numéricos.")
    | some sraw =>
      match data.target_year with
      | none => .error (.valueError "Configuração incompleta: campo ausente target_year.")
      | some yv =>
        match pyIntOf yv with
        | none => .error (.valueError "Ano e mês precisam ser numéricos.")
        | some year =>
          match data.target_month with
          | none => .error (.valueError "Configuração incompleta: campo ausente target_month.")
          | some mv =>
            match pyIntOf mv with
            | none => .error (.valueError "Ano e mês precisam ser numéricos.")
            | some month =>
              if (portugueseMonths month).isSome then
                let baseDir := parentPath configPath
                let source := resolvePath (joinPath baseDir (parsePath sraw))
                match data.output_directory with
                | none =>
                  .ok ⟨source, year, month, resolvePath (joinPath baseDir (parsePath "."))⟩
                | some ov =>
                  match pyPathOf ov with
                  | none => .error .typeError
                  | some oraw =>
                    .ok ⟨source, year, month, resolvePath (joinPath baseDir (parsePath oraw))⟩
              else .error (.valueError "Mês deve estar entre 1 e 12.")

/-- Line 344: `output_dir = config.output_directory or config.source_file.parent`.
A `pathlib.Path` object is always truthy, so the fallback branch is dead and
the run writes into the configured directory as-is. -/
def runOutputDir (cfg : Config) : PyPath := cfg.output_directory

/-- `main` (lines 364-368): the configuration is loaded and validated before
the workbook is opened or any sheet processed; on a config error no sheet is
produced. The loaded-workbook transformation is lines 334-342. -/
def runGeneration (configPath : PyPath) (data : ConfigJson)
    (sheets : List (String × Worksheet)) : Except PyErr (List (String × Worksheet)) :=
  match loadConfig configPath data with
  | .error e => .error e
  | .ok cfg =>
    let monthName := (portugueseMonths cfg.target_month).getD ""
    let sundays := monthSundays cfg.target_year.toNat cfg.target_month.toNat
    .ok (processWorkbook sheets sundays monthName cfg.target_month.toNat)

/-! ## Helper lemmas about `normalize` -/

theorem nfkdChar_ascii {c : Char} (h : c.toNat < 128) : nfkdChar c = [c] := by
  unfold nfkdChar
  rw [if_pos h]

theorem toNat_ofNat_add32 (n : Nat) (h1 : 65 ≤ n) (h2 : n ≤ 90) :
    (Char.ofNat (n + 32)).toNat = n + 32 := by
  have hv : (n + 32).isValidChar := by
    constructor
    omega
  rw [Char.ofNat, dif_pos hv]
  simp only [Char.ofNatAux, Char.toNat, UInt32.toNat, UInt32.ofNatCore, BitVec.toNat]
  simp [BitVec.ofNatLt]

theorem pyLower_lt128 {c : Char} (h : c.toNat < 128) : (pyLower c).toNat < 128 := by
  unfold pyLower
  split
  · next hc => rw [toNat_ofNat_add32 c.toNat hc.1 hc.2]; omega
  · exact h

theorem pyLower_not_upper (c : Char) :
    ¬(65 ≤ (pyLower c).toNat ∧ (pyLower c).toNat ≤ 90) := by
  unfold pyLower
  split
  · next hc => rw [toNat_ofNat_add32 c.toNat hc.1 hc.2]; omega
  · next hc => exact hc

theorem pyLower_idem (c : Char) : pyLower (pyLower c) = pyLower c := by
  have h := pyLower_not_upper c
  rw [show pyLower (pyLower c)
      = (if 65 ≤ (pyLower c).toNat ∧ (pyLower c).toNat ≤ 90
         then Char.ofNat ((pyLower c).toNat + 32) else pyLower c) from rfl,
    if_neg h]

theorem data_normalizeStr (s : String) :
    (normalizeStr s).data =
      (((s.data.map nfkdChar).flatten).filter (fun c => c.toNat < 128)).map pyLower := rfl

theorem normalizeStr_chars {s : String} {c : Char} (h : c ∈ (normalizeStr s).data) :
    c.toNat < 128 ∧ ¬(65 ≤ c.toNat ∧ c.toNat ≤ 90) := by
  rw [data_normalizeStr] at h
  obtain ⟨c', hc', rfl⟩ := List.mem_map.mp h
  have h128 : c'.toNat < 128 := by
    have := List.of_mem_filter hc'
    simpa using this
  exact ⟨pyLower_lt128 h128, pyLower_not_upper c'⟩

theorem flatten_nfkd_ascii {L : List Char} (h : ∀ c ∈ L, c.toNat < 128) :
    (L.map nfkdChar).flatten = L := by
  induction L with
  | nil => rfl
  | cons c t ih =>
    simp only [List.map_cons, List.flatten_cons]
    rw [nfkdChar_ascii (h c (List.mem_cons_self c t)),
      ih (fun x hx => h x (List.mem_cons_of_mem c hx))]
    rfl

theorem normalizeStr_idem (s : String) : normalizeStr (normalizeStr s) = normalizeStr s := by
  have hall : ∀ c ∈ (normalizeStr s).data, c.toNat < 128 := fun c hc =>
    (normalizeStr_chars hc).1
  have h1 : normalizeStr (normalizeStr s)
      = String.mk ((((normalizeStr s).data.map nfkdChar).flatten.filter
          (fun c => c.toNat < 128)).map pyLower) := rfl
  rw [h1, flatten_nfkd_ascii hall,
    List.filter_eq_self.mpr (fun c hc => by simpa using hall c hc),
    data_normalizeStr, List.map_map]
  have h2 : List.map (pyLower ∘ pyLower)
        (((s.data.map nfkdChar).flatten).filter (fun c => c.toNat < 128))
      = List.map pyLower
        (((s.data.map nfkdChar).flatten).filter (fun c => c.toNat < 128)) :=
    List.map_congr_left (fun c _ => pyLower_idem c)
  rw [h2]
  rfl

/-- C10 — `normalize` is total and idempotent: its output is ASCII with no
uppercase letters, every non-string input yields `""`, and applying
`normalize` to its own output changes nothing; hence label comparisons are
case- and diacritic-insensitive. (Lines 86-89.) -/
theorem c10_normalize_total_idempotent :
    (∀ v : CellValue, ∀ c ∈ (normalize v).data,
        c.toNat < 128 ∧ ¬(65 ≤ c.toNat ∧ c.toNat ≤ 90)) ∧
    (∀ v : CellValue, (∀ s, v ≠ CellValue.str s) → normalize v = "") ∧
    (∀ v : CellValue, normalize (CellValue.str (normalize v)) = normalize v) := by
  refine ⟨fun v c hc => ?_, fun v hv => ?_, fun v => ?_⟩
  · match v with
    | .str s => exact normalizeStr_chars hc
    | .empty => simp [normalize] at hc
    | .dt d => simp [normalize] at hc
  · match v with
    | .str s => exact absurd rfl (hv s)
    | .empty => rfl
    | .dt d => rfl
  · match v with
    | .str s => exact normalizeStr_idem s
    | .empty => rfl
    | .dt d => rfl

/-- Witness for C10 at concrete inputs. -/
theorem c10_normalize_witness :
    normalize (CellValue.dt ⟨2024, 1, 1⟩) = "" ∧
    normalize (CellValue.str (normalize (CellValue.str "Março"))) =
      normalize (CellValue.str "Março") := by
  constructor
  · exact c10_normalize_total_idempotent.2.1 (CellValue.dt ⟨2024, 1, 1⟩)
      (fun s h => by cases h)
  · exact c10_normalize_total_idempotent.2.2 (CellValue.str "Março")

example : normalize (CellValue.str "Março") = "marco" := by decide

/-! ## Helper lemmas for `month_sundays` -/

theorem daysInMonth_bounds (y m : Nat) :
    28 ≤ daysInMonth y m ∧ daysInMonth y m ≤ 31 := by
  unfold daysInMonth
  split_ifs <;> omega

theorem toOrdinal_split (y m d : Nat) :
    toOrdinal y m d = (toOrdinal y m 1 - 1) + d := by
  unfold toOrdinal
  set K := 365 * (y - 1) + (y - 1) / 4 - (y - 1) / 100 + (y - 1) / 400
    + daysBeforeMonth y m with hK
  omega

theorem weekday_shift (y m d : Nat) (hd : 1 ≤ d) :
    weekday y m d = ((toOrdinal y m 1 - 1) % 7 + (d - 1)) % 7 := by
  unfold weekday
  rw [toOrdinal_split]
  set b := toOrdinal y m 1 - 1 with hb
  omega

theorem countP_mod7 (b n : Nat) (hb : b < 7) (h1 : 28 ≤ n) (h2 : n ≤ 31) :
    (List.range n).countP (fun k => (b + k) % 7 == 6) = 4 ∨
    (List.range n).countP (fun k => (b + k) % 7 == 6) = 5 := by
  interval_cases b <;> interval_cases n <;> decide

/-- C2 — `month_sundays` returns only Sundays of the requested month, in
strictly ascending day order, and there are 4 or 5 of them. (Lines 92-99;
the year bounds are the `datetime.date` validity range.) -/
theorem c2_month_sundays (y m : Nat) (hy1 : 1 ≤ y) (hy2 : y ≤ 9999)
    (hm1 : 1 ≤ m) (hm2 : m ≤ 12) :
    (∀ d ∈ monthSundays y m,
        d.year = y ∧ d.month = m ∧ 1 ≤ d.day ∧ d.day ≤ daysInMonth y m ∧
        weekday y m d.day = 6) ∧
    (monthSundays y m).Pairwise (fun a b => a.day < b.day) ∧
    ((monthSundays y m).length = 4 ∨ (monthSundays y m).length = 5) := by
  refine ⟨?_, ?_, ?_⟩
  · intro d hd
    unfold monthSundays at hd
    obtain ⟨day, hmem, rfl⟩ := List.mem_map.mp hd
    have hfil := List.of_mem_filter hmem
    have hrange := List.mem_range'.mp (List.mem_of_mem_filter hmem)
    obtain ⟨i, hi, rfl⟩ := hrange
    refine ⟨rfl, rfl, show 1 ≤ 1 + 1 * i by omega,
      show 1 + 1 * i ≤ daysInMonth y m by omega,
      show weekday y m (1 + 1 * i) = 6 by simpa using hfil⟩
  · unfold monthSundays
    rw [List.pairwise_map]
    exact List.Pairwise.filter _ (List.pairwise_lt_range' 1 (daysInMonth y m))
  · unfold monthSundays
    rw [List.length_map, ← List.countP_eq_length_filter]
    have hcong : (List.range' 1 (daysInMonth y m)).countP (fun d => weekday y m d == 6)
        = (List.range' 1 (daysInMonth y m)).countP
            (fun d => ((toOrdinal y m 1 - 1) % 7 + (d - 1)) % 7 == 6) := by
      apply List.countP_congr
      intro d hd
      obtain ⟨i, hi, rfl⟩ := List.mem_range'.mp hd
      rw [weekday_shift y m (1 + 1 * i) (by omega)]
    rw [hcong, List.range'_eq_map_range, List.countP_map]
    have hcong2 : ((fun d => ((toOrdinal y m 1 - 1) % 7 + (d - 1)) % 7 == 6)
          ∘ (fun x => 1 + x))
        = (fun k => ((toOrdinal y m 1 - 1) % 7 + k) % 7 == 6) := by
      funext k
      simp [Function.comp]
    rw [hcong2]
    exact countP_mod7 ((toOrdinal y m 1 - 1) % 7) (daysInMonth y m)
      (Nat.mod_lt _ (by omega)) (daysInMonth_bounds y m).1 (daysInMonth_bounds y m).2

/-- Witness for C2 at March 2024. -/
theorem c2_month_sundays_witness :
    (monthSundays 2024 3).Pairwise (fun a b => a.day < b.day) ∧
    ((monthSundays 2024 3).length = 4 ∨ (monthSundays 2024 3).length = 5) := by
  have h := c2_month_sundays 2024 3 (by decide) (by decide) (by decide) (by decide)
  exact ⟨h.2.1, h.2.2⟩

/-! ## Helper lemmas for `collect_students` -/

/-- A name cell that increments the empty streak: non-text, or text that
strips to the empty string (lines 143-150 and 157-160). -/
def emptyNameCell (ws : Worksheet) (nameCol row : Nat) : Bool :=
  match ws.cells row nameCol with
  | .str raw => pyStrip raw == ""
  | _ => true

theorem scanStudents_empty_eq (ws : Worksheet) (nc bc fuel row streak : Nat)
    (h : emptyNameCell ws nc row = true) :
    scanStudents ws nc bc (fuel + 1) row streak =
      if row ≤ ws.maxRow ∧ streak + 1 < 3 then
        scanStudents ws nc bc fuel (row + 1) (streak + 1)
      else [] := by
  rw [scanStudents]
  by_cases hr : row ≤ ws.maxRow
  · rw [if_pos hr]
    unfold emptyNameCell at h
    split
    · next raw heq =>
      rw [heq] at h
      have hraw : pyStrip raw = "" := by simpa using h
      rw [if_pos hraw]
      by_cases hs : streak + 1 ≥ 3
      · rw [if_pos hs, if_neg (by omega)]
      · rw [if_neg hs, if_pos (And.intro hr (by omega))]
    · next x heq =>
      by_cases hs : streak + 1 ≥ 3
      · rw [if_pos hs, if_neg (by omega)]
      · rw [if_neg hs, if_pos (And.intro hr (by omega))]
  · rw [if_neg hr, if_neg (fun hc => hr hc.1)]

theorem scanStudents_no_section (ws : Worksheet) (nc bc : Nat) :
    ∀ (fuel row streak : Nat) (p : String × Option (Nat × Nat)),
      p ∈ scanStudents ws nc bc fuel row streak →
      isSectionText (normalizeStr p.1) = false := by
  intro fuel
  induction fuel with
  | zero => intro row streak p hp; simp [scanStudents] at hp
  | succ n ih =>
    intro row streak p hp
    rw [scanStudents] at hp
    by_cases hr : row ≤ ws.maxRow
    · rw [if_pos hr] at hp
      split at hp
      · next raw heq =>
        by_cases hraw : pyStrip raw = ""
        · rw [if_pos hraw] at hp
          by_cases hs : streak + 1 ≥ 3
          · rw [if_pos hs] at hp; simp at hp
          · rw [if_neg hs] at hp; exact ih _ _ _ hp
        · rw [if_neg hraw] at hp
          by_cases hsec : isSectionText (normalizeStr (pyStrip raw)) = true
          · rw [if_pos hsec] at hp; simp at hp
          · rw [if_neg hsec] at hp
            rcases List.mem_cons.mp hp with rfl | htail
            · exact Bool.eq_false_iff.mpr (fun hb => hsec hb)
            · exact ih _ _ _ htail
      · next x heq =>
        by_cases hs : streak + 1 ≥ 3
        · rw [if_pos hs] at hp; simp at hp
        · rw [if_neg hs] at hp; exact ih _ _ _ hp
    · rw [if_neg hr] at hp; simp at hp

/-- C4 — the roster scan (a) returns nothing once it reaches three
consecutive empty/non-text name rows, from any scan state, and (b) never
returns a student whose normalized name is section text (ends with ":" or
contains one of present/ausent/total/visit/assunto/anivers).
(Lines 135-162.) -/
theorem c4_roster_stop_rules :
    (∀ (ws : Worksheet) (nameCol birthCol fuel row streak : Nat),
        emptyNameCell ws nameCol row = true →
        emptyNameCell ws nameCol (row + 1) = true →
        emptyNameCell ws nameCol (row + 2) = true →
        scanStudents ws nameCol birthCol fuel row streak = []) ∧
    (∀ (ws : Worksheet) (nameCol birthCol : Nat) (p : String × Option (Nat × Nat)),
        p ∈ collectStudents ws nameCol birthCol →
        isSectionText (normalizeStr p.1) = false) := by
  constructor
  · intro ws nc bc fuel row streak h1 h2 h3
    match fuel with
    | 0 => rw [scanStudents]
    | f + 1 =>
      rw [scanStudents_empty_eq ws nc bc f row streak h1]
      split
      · match f with
        | 0 => rw [scanStudents]
        | g + 1 =>
          rw [scanStudents_empty_eq ws nc bc g (row + 1) (streak + 1) h2]
          split
          · match g with
            | 0 => rw [scanStudents]
            | k + 1 =>
              rw [show row + 1 + 1 = row + 2 from rfl,
                scanStudents_empty_eq ws nc bc k (row + 2) (streak + 1 + 1) h3,
                if_neg (by omega)]
          · rfl
      · rfl
  · intro ws nc bc p hp
    exact scanStudents_no_section ws nc bc _ _ _ p hp

/-- A concrete roster sheet: a student row, then a `"Total:"` row, then
blank rows. -/
def exC4 : Worksheet :=
  { cells := fun r c =>
      if r = 6 ∧ c = 1 then .str "Ana Souza"
      else if r = 6 ∧ c = 2 then .str "15/03/1990"
      else if r = 7 ∧ c = 1 then .str "Total:"
      else .empty,
    maxRow := 12, maxCol := 3 }

/-- Witness for C4: on `exC4` the scan from row 8 (three blank rows ahead)
returns nothing, and the full extraction excludes the `"Total:"` row and
everything below it. -/
theorem c4_roster_stop_rules_witness :
    scanStudents exC4 1 2 10 8 0 = [] ∧
    collectStudents exC4 1 2 = [("Ana Souza", some (15, 3))] := by
  constructor
  · exact c4_roster_stop_rules.1 exC4 1 2 10 8 0 (by decide) (by decide) (by decide)
  · decide

/-! ## Helper facts for the birthday aggregation -/

instance : IsTotal (Nat × String × String) entryLe where
  total a b := by
    unfold entryLe
    rcases Nat.lt_trichotomy a.1 b.1 with h | h | h
    · exact Or.inl (Or.inl h)
    · rcases le_total a.2.1 b.2.1 with hs | hs
      · exact Or.inl (Or.inr ⟨h, hs⟩)
      · exact Or.inr (Or.inr ⟨h.symm, hs⟩)
    · exact Or.inr (Or.inl h)

instance : IsTrans (Nat × String × String) entryLe where
  trans a b c hab hbc := by
    unfold entryLe at hab hbc ⊢
    rcases hab with h1 | ⟨h1, h1s⟩
    · rcases hbc with h2 | ⟨h2, _⟩
      · exact Or.inl (h1.trans h2)
      · exact Or.inl (h2 ▸ h1)
    · rcases hbc with h2 | ⟨h2, h2s⟩
      · exact Or.inl (h1 ▸ h2)
      · exact Or.inr ⟨h1.trans h2, le_trans h1s h2s⟩

/-- C5 — the birthday pipeline: the sorted entry list is ordered by
(day, normalized name) lexicographically, is a permutation of the
month-filtered roster, and its members are exactly the students whose parsed
birth month equals the target; the end-to-end example formats
"Ana Souza - 15/03" and drops a "--" birth without error.
(Lines 273-305 with `parse_birth`, lines 102-119.) -/
theorem c5_birthday_aggregation :
    (∀ (students : List (String × Option (Nat × Nat))) (m : Nat),
        List.Sorted entryLe (birthdayEntriesSorted students m)) ∧
    (∀ (students : List (String × Option (Nat × Nat))) (m : Nat),
        (birthdayEntriesSorted students m).Perm (birthdayEntries students m)) ∧
    (∀ (students : List (String × Option (Nat × Nat))) (m : Nat)
        (e : Nat × String × String),
        e ∈ birthdayEntriesSorted students m ↔
          ∃ p ∈ students, p.2 = some (e.1, m) ∧ e.2.1 = normalizeStr p.1 ∧ e.2.2 = p.1) ∧
    (birthdayStrings
        [("Ana Souza", parseBirth (.str "15/03/1990")), ("Bia", parseBirth (.str "--"))] 3
      = ["Ana Souza - 15/03"]) := by
  refine ⟨fun students m => List.sorted_insertionSort entryLe _,
    fun students m => List.perm_insertionSort entryLe _, fun students m e => ?_, by decide⟩
  obtain ⟨ed, ek, en⟩ := e
  unfold birthdayEntriesSorted
  rw [List.mem_insertionSort]
  unfold birthdayEntries
  rw [List.mem_filterMap]
  constructor
  · rintro ⟨p, hp, hf⟩
    refine ⟨p, hp, ?_⟩
    rcases hpp : p.2 with _ | ⟨d, mo⟩
    · simp [hpp] at hf
    · simp only [hpp] at hf
      by_cases hm : mo = m
      · rw [if_pos hm] at hf
        have h1 := Option.some.inj hf
        simp only [Prod.mk.injEq] at h1
        obtain ⟨rfl, rfl, rfl⟩ := h1
        subst hm
        exact ⟨rfl, rfl, rfl⟩
      · rw [if_neg hm] at hf
        cases hf
  · rintro ⟨p, hp, hcond, hk, hnm⟩
    refine ⟨p, hp, ?_⟩
    have hcond' : p.2 = some (ed, m) := hcond
    have hk' : ek = normalizeStr p.1 := hk
    have hnm' : en = p.1 := hnm
    simp only [hcond']
    simp [hk', hnm']

/-- Witness for C5 at a concrete roster. -/
theorem c5_birthday_aggregation_witness :
    List.Sorted entryLe (birthdayEntriesSorted
      [("Ana Souza", some (15, 3)), ("Bia", some (2, 3)), ("Caio", some (2, 3))] 3) :=
  c5_birthday_aggregation.1
    [("Ana Souza", some (15, 3)), ("Bia", some (2, 3)), ("Caio", some (2, 3))] 3

/-! ## Reading back cell ranges, and `writeColVals` facts -/

/-- The values of column `col` at rows `row0, …, row0 + count - 1`. -/
def readColRange (ws : Worksheet) (col row0 count : Nat) : List CellValue :=
  (List.range' row0 count).map (fun r => ws.cells r col)

theorem writeColVals_untouched :
    ∀ (vals : List CellValue) (ws : Worksheet) (col row0 r c : Nat),
      (c ≠ col ∨ r < row0 ∨ row0 + vals.length ≤ r) →
      (writeColVals ws col row0 vals).cells r c = ws.cells r c
  | [], ws, col, row0, r, c, _ => rfl
  | v :: rest, ws, col, row0, r, c, h => by
    rw [writeColVals,
      writeColVals_untouched rest _ col (row0 + 1) r c (by
        rcases h with h | h | h
        · exact Or.inl h
        · exact Or.inr (Or.inl (by omega))
        · exact Or.inr (Or.inr (by simp at h; omega)))]
    rw [setCell]
    show (if r = row0 ∧ c = col then v else ws.cells r c) = ws.cells r c
    rw [if_neg]
    rintro ⟨rfl, rfl⟩
    rcases h with h | h | h
    · exact h rfl
    · omega
    · simp only [List.length_cons] at h; omega

theorem readColRange_writeColVals :
    ∀ (vals : List CellValue) (ws : Worksheet) (col row0 : Nat),
      readColRange (writeColVals ws col row0 vals) col row0 vals.length = vals
  | [], ws, col, row0 => rfl
  | v :: rest, ws, col, row0 => by
    rw [writeColVals]
    show readColRange _ col row0 (rest.length + 1) = v :: rest
    unfold readColRange
    rw [List.range'_succ, List.map_cons]
    congr 1
    · rw [writeColVals_untouched rest _ col (row0 + 1) row0 col (Or.inr (Or.inl (by omega)))]
      show (if row0 = row0 ∧ col = col then v else ws.cells row0 col) = v
      rw [if_pos ⟨rfl, rfl⟩]
    · exact readColRange_writeColVals rest _ col (row0 + 1)

theorem readColRange_congr (ws ws' : Worksheet) (col row0 count : Nat)
    (h : ∀ r, row0 ≤ r → r < row0 + count → ws.cells r col = ws'.cells r col) :
    readColRange ws col row0 count = readColRange ws' col row0 count := by
  unfold readColRange
  refine List.map_congr_left (fun r hr => ?_)
  obtain ⟨i, hi, rfl⟩ := List.mem_range'.mp hr
  exact h _ (by omega) (by omega)

/-! ## Locating labels: bounds -/

theorem findLabelCell_row_le {ws : Worksheet} {label : String} {lr lc : Nat}
    (h : findLabelCell ws label = some (lr, lc)) : lr ≤ ws.maxRow := by
  unfold findLabelCell at h
  obtain ⟨r, hr, hf⟩ := List.exists_of_findSome?_eq_some h
  obtain ⟨i, hi, rfl⟩ := List.mem_range'.mp hr
  rw [Option.map_eq_some'] at hf
  obtain ⟨c, _, hrc⟩ := hf
  have h1 : 1 + 1 * i = lr := congrArg Prod.fst hrc
  omega

theorem getD_find?_range'_ge (p : Nat → Bool) (s n d : Nat) (hd : s ≤ d) :
    s ≤ ((List.range' s n).find? p).getD d := by
  rcases hfind : (List.range' s n).find? p with _ | r
  · simpa using hd
  · have hr := List.mem_of_find?_eq_some hfind
    obtain ⟨i, hi, rfl⟩ := List.mem_range'.mp hr
    simp only [Option.getD_some]
    omega

theorem sectionEndRow_ge (ws : Worksheet) (lr lc : Nat) (stopNorm : String)
    (hlr : lr ≤ ws.maxRow) : lr + 1 ≤ sectionEndRow ws lr lc stopNorm := by
  unfold sectionEndRow
  exact getD_find?_range'_ge _ (lr + 1) (ws.maxRow - lr) (ws.maxRow + 1) (by omega)

/-! ## The synchronizer postcondition -/

/-- The common tail of `update_section_dates` and `update_birthdays`: write
the values below the label, blanking through the old boundary. `e` is the
boundary row found on the original sheet, `n` the value count. -/
theorem sync_block_post (ws : Worksheet) (lc lr e n : Nat) (vals : List CellValue)
    (he : lr + 1 ≤ e) (hn : n = vals.length) :
    readColRange
        (writeColVals
          (writeColVals (if e - lr - 1 < n then insertRows ws e (n - (e - lr - 1)) else ws)
            lc (lr + 1) vals)
          lc (lr + 1 + n)
          (List.replicate
            ((if e - lr - 1 < n then e + (n - (e - lr - 1)) else e) - (lr + 1 + n))
            (CellValue.str "")))
        lc (lr + 1) n = vals ∧
    readColRange
        (writeColVals
          (writeColVals (if e - lr - 1 < n then insertRows ws e (n - (e - lr - 1)) else ws)
            lc (lr + 1) vals)
          lc (lr + 1 + n)
          (List.replicate
            ((if e - lr - 1 < n then e + (n - (e - lr - 1)) else e) - (lr + 1 + n))
            (CellValue.str "")))
        lc (lr + 1 + n) (e - (lr + 1 + n))
      = List.replicate (e - (lr + 1 + n)) (CellValue.str "") := by
  constructor
  · rw [readColRange_congr _
      (writeColVals (if e - lr - 1 < n then insertRows ws e (n - (e - lr - 1)) else ws)
        lc (lr + 1) vals) lc (lr + 1) n
      (fun r h1 h2 => writeColVals_untouched _ _ _ _ _ _
        (Or.inr (Or.inl (by omega))))]
    subst hn
    exact readColRange_writeColVals vals _ lc (lr + 1)
  · by_cases hav : e - lr - 1 < n
    · have h0 : e - (lr + 1 + n) = 0 := by omega
      rw [h0]
      rfl
    · rw [if_neg hav, if_neg hav]
      have := readColRange_writeColVals
        (List.replicate (e - (lr + 1 + n)) (CellValue.str ""))
        (writeColVals ws lc (lr + 1) vals) lc (lr + 1 + n)
      rwa [List.length_replicate] at this

/-- C1 — label-block synchronizer postcondition for both
`update_section_dates` (arbitrary label, `datetime` values) and
`update_birthdays` (the birthday strings): reading back the label's column
at rows `labelRow+1 .. labelRow+len(values)` yields the values in order, and
every row from there up to the (possibly shifted) old block boundary is
blanked to `""`. (Lines 246-270 and 273-305.) -/
theorem c1_label_block_sync
    (ws wsB : Worksheet) (label : String) (sundays : List Date)
    (students : List (String × Option (Nat × Nat))) (m : Nat)
    (lr lc lrB lcB : Nat)
    (h : findLabelCell ws label = some (lr, lc))
    (hB : findLabelCell wsB "ANIVERSARIANTES:" = some (lrB, lcB)) :
    (readColRange (updateSectionDates ws label sundays) lc (lr + 1) sundays.length
        = sundays.map CellValue.dt ∧
      readColRange (updateSectionDates ws label sundays) lc (lr + 1 + sundays.length)
          (sectionEndRow ws lr lc (normalizeStr label) - (lr + 1 + sundays.length))
        = List.replicate
            (sectionEndRow ws lr lc (normalizeStr label) - (lr + 1 + sundays.length))
            (CellValue.str "")) ∧
    (readColRange (updateBirthdays wsB students m) lcB (lrB + 1)
          (birthdayStrings students m).length
        = (birthdayStrings students m).map CellValue.str ∧
      readColRange (updateBirthdays wsB students m) lcB
          (lrB + 1 + (birthdayStrings students m).length)
          (sectionEndRow wsB lrB lcB "aniversariantes:"
            - (lrB + 1 + (birthdayStrings students m).length))
        = List.replicate
            (sectionEndRow wsB lrB lcB "aniversariantes:"
              - (lrB + 1 + (birthdayStrings students m).length))
            (CellValue.str "")) := by
  constructor
  · have he := sectionEndRow_ge ws lr lc (normalizeStr label) (findLabelCell_row_le h)
    have hpost := sync_block_post ws lc lr (sectionEndRow ws lr lc (normalizeStr label))
      sundays.length (sundays.map CellValue.dt) he (List.length_map _ _).symm
    have hunf : updateSectionDates ws label sundays
        = writeColVals
            (writeColVals
              (if sectionEndRow ws lr lc (normalizeStr label) - lr - 1 < sundays.length then
                insertRows ws (sectionEndRow ws lr lc (normalizeStr label))
                  (sundays.length - (sectionEndRow ws lr lc (normalizeStr label) - lr - 1))
              else ws)
              lc (lr + 1) (sundays.map CellValue.dt))
            lc (lr + 1 + sundays.length)
            (List.replicate
              ((if sectionEndRow ws lr lc (normalizeStr label) - lr - 1 < sundays.length then
                  sectionEndRow ws lr lc (normalizeStr label)
                    + (sundays.length - (sectionEndRow ws lr lc (normalizeStr label) - lr - 1))
                else sectionEndRow ws lr lc (normalizeStr label))
                - (lr + 1 + sundays.length))
              (CellValue.str "")) := by
      unfold updateSectionDates
      rw [h]
      by_cases hav : sectionEndRow ws lr lc (normalizeStr label) - lr - 1 < sundays.length
      · simp only [if_pos hav]
      · simp only [if_neg hav]
    rw [hunf]
    exact hpost
  · have he := sectionEndRow_ge wsB lrB lcB "aniversariantes:" (findLabelCell_row_le hB)
    have hpost := sync_block_post wsB lcB lrB (sectionEndRow wsB lrB lcB "aniversariantes:")
      (birthdayStrings students m).length ((birthdayStrings students m).map CellValue.str)
      he (List.length_map _ _).symm
    have hunf : updateBirthdays wsB students m
        = writeColVals
            (writeColVals
              (if sectionEndRow wsB lrB lcB "aniversariantes:" - lrB - 1
                  < (birthdayStrings students m).length then
                insertRows wsB (sectionEndRow wsB lrB lcB "aniversariantes:")
                  ((birthdayStrings students m).length
                    - (sectionEndRow wsB lrB lcB "aniversariantes:" - lrB - 1))
              else wsB)
              lcB (lrB + 1) ((birthdayStrings students m).map CellValue.str))
            lcB (lrB + 1 + (birthdayStrings students m).length)
            (List.replicate
              ((if sectionEndRow wsB lrB lcB "aniversariantes:" - lrB - 1
                    < (birthdayStrings students m).length then
                  sectionEndRow wsB lrB lcB "aniversariantes:"
                    + ((birthdayStrings students m).length
                      - (sectionEndRow wsB lrB lcB "aniversariantes:" - lrB - 1))
                else sectionEndRow wsB lrB lcB "aniversariantes:")
                - (lrB + 1 + (birthdayStrings students m).length))
              (CellValue.str "")) := by
      unfold updateBirthdays
      rw [hB]
      simp only [Nat.zero_max]
      by_cases hav : sectionEndRow wsB lrB lcB "aniversariantes:" - lrB - 1
          < (birthdayStrings students m).length
      · simp only [if_pos hav]
      · simp only [if_neg hav]
    rw [hunf]
    exact hpost

/-- A sheet with a "VISITAS:" label at (6,1), five stale entries beneath it,
and the next label at row 12. -/
def exC1 : Worksheet :=
  { cells := fun r c =>
      if r = 6 ∧ c = 1 then .str "VISITAS:"
      else if 7 ≤ r ∧ r ≤ 11 ∧ c = 1 then .str "old entry"
      else if r = 12 ∧ c = 1 then .str "ANIVERSARIANTES:"
      else .empty,
    maxRow := 12, maxCol := 1 }

def ex3Sundays : List Date := [⟨2024, 3, 3⟩, ⟨2024, 3, 10⟩, ⟨2024, 3, 17⟩]

/-- Witness for C1: shrinking the previously 5-entry block under "VISITAS:"
to 3 dates writes them at rows 7-9 and blanks rows 10-11. -/
theorem c1_label_block_sync_witness :
    readColRange (updateSectionDates exC1 "VISITAS:" ex3Sundays) 1 (6 + 1) ex3Sundays.length
      = ex3Sundays.map CellValue.dt ∧
    readColRange (updateSectionDates exC1 "VISITAS:" ex3Sundays) 1 (6 + 1 + ex3Sundays.length)
        (sectionEndRow exC1 6 1 (normalizeStr "VISITAS:") - (6 + 1 + ex3Sundays.length))
      = List.replicate (sectionEndRow exC1 6 1 (normalizeStr "VISITAS:")
          - (6 + 1 + ex3Sundays.length)) (CellValue.str "") ∧
    readColRange (updateSectionDates exC1 "VISITAS:" ex3Sundays) 1 10 2
      = [CellValue.str "", CellValue.str ""] := by
  have h := c1_label_block_sync exC1 exC1 "VISITAS:" ex3Sundays [] 3 6 1 12 1
    (by decide) (by decide)
  exact ⟨h.1.1, h.1.2, by decide⟩

/-! ## The gap-fill loop of `ensure_date_columns` -/

theorem fillGapStep_preserve {st : Worksheet × List Nat} {col p : Nat}
    (hp : p ∈ st.2) (hlt : p < col) : p ∈ (fillGapStep st col).2 := by
  unfold fillGapStep
  by_cases hc : col ∈ st.2
  · rw [if_pos hc]
    exact hp
  · rw [if_neg hc]
    show p ∈ ((st.2.map (fun c => if col ≤ c then c + 1 else c)) ++ [col]).insertionSort (· ≤ ·)
    rw [List.mem_insertionSort]
    refine List.mem_append.mpr (Or.inl (List.mem_map.mpr ⟨p, hp, ?_⟩))
    rw [if_neg (by omega)]

theorem fillGapStep_mem_self (st : Worksheet × List Nat) (col : Nat) :
    col ∈ (fillGapStep st col).2 := by
  unfold fillGapStep
  by_cases hc : col ∈ st.2
  · rw [if_pos hc]
    exact hc
  · rw [if_neg hc]
    show col ∈ ((st.2.map (fun c => if col ≤ c then c + 1 else c)) ++ [col]).insertionSort (· ≤ ·)
    rw [List.mem_insertionSort]
    exact List.mem_append.mpr (Or.inr (List.mem_singleton.mpr rfl))

theorem foldl_fillGap_preserve :
    ∀ (L : List Nat) (st : Worksheet × List Nat) (p : Nat),
      p ∈ st.2 → (∀ c ∈ L, p < c) → p ∈ (L.foldl fillGapStep st).2
  | [], _, _, hp, _ => hp
  | c :: t, st, p, hp, hL => by
    rw [List.foldl_cons]
    exact foldl_fillGap_preserve t (fillGapStep st c) p
      (fillGapStep_preserve hp (hL c (List.mem_cons_self c t)))
      (fun c' hc' => hL c' (List.mem_cons_of_mem c hc'))

theorem foldl_fillGap_mem :
    ∀ (L : List Nat) (st : Worksheet × List Nat),
      L.Pairwise (· < ·) → ∀ c ∈ L, c ∈ (L.foldl fillGapStep st).2
  | [], _, _, c, hc => absurd hc (List.not_mem_nil c)
  | c :: t, st, hpw, x, hx => by
    rw [List.foldl_cons]
    rcases List.mem_cons.mp hx with rfl | hxt
    · exact foldl_fillGap_preserve t (fillGapStep st x) x
        (fillGapStep_mem_self st x) (fun c' hc' => (List.pairwise_cons.mp hpw).1 c' hc')
    · exact foldl_fillGap_mem t (fillGapStep st c) (List.pairwise_cons.mp hpw).2 x hxt

theorem appendLoop_noop (n : Nat) (ws : Worksheet) (existing : List Nat)
    (h : n ≤ existing.length) : appendLoop n n ws existing = (ws, existing) := by
  cases n with
  | zero => rfl
  | succ k => rw [appendLoop, if_neg (by omega)]

/-- C9 — after the gap-fill loop, every needed column is present in
`existing_cols`, hence the list is at least as long as `needed_cols` and the
append-columns `while` loop never runs: `ensure_date_columns` returns the
gap-fill state unchanged by it. (Lines 187-206.) -/
theorem c9_gap_fill_covers (ws : Worksheet) (sundays : List Date) (hs : sundays ≠ [])
    (firstCol : Nat) (rest : List Nat) (hex : headerDateCols ws = firstCol :: rest) :
    (∀ c ∈ List.range' firstCol sundays.length,
        c ∈ ((List.range' firstCol sundays.length).foldl fillGapStep
              (ws, firstCol :: rest)).2) ∧
    sundays.length ≤ ((List.range' firstCol sundays.length).foldl fillGapStep
        (ws, firstCol :: rest)).2.length ∧
    appendLoop sundays.length sundays.length
        ((List.range' firstCol sundays.length).foldl fillGapStep (ws, firstCol :: rest)).1
        ((List.range' firstCol sundays.length).foldl fillGapStep (ws, firstCol :: rest)).2
      = (List.range' firstCol sundays.length).foldl fillGapStep (ws, firstCol :: rest) ∧
    ensureDateCols ws sundays
      = (((List.range' firstCol sundays.length).foldl fillGapStep (ws, firstCol :: rest)).1,
         List.range' firstCol sundays.length) := by
  have hmem : ∀ c ∈ List.range' firstCol sundays.length,
      c ∈ ((List.range' firstCol sundays.length).foldl fillGapStep (ws, firstCol :: rest)).2 :=
    foldl_fillGap_mem _ _ (List.pairwise_lt_range' firstCol sundays.length)
  have hlen : sundays.length
      ≤ ((List.range' firstCol sundays.length).foldl fillGapStep (ws, firstCol :: rest)).2.length := by
    have hsub := (List.nodup_range' firstCol sundays.length).subperm
      (fun c hc => hmem c hc)
    have := hsub.length_le
    simpa using this
  have hnoop := appendLoop_noop sundays.length
    ((List.range' firstCol sundays.length).foldl fillGapStep (ws, firstCol :: rest)).1
    ((List.range' firstCol sundays.length).foldl fillGapStep (ws, firstCol :: rest)).2 hlen
  refine ⟨hmem, hlen, hnoop, ?_⟩
  simp only [ensureDateCols, hex]
  rw [if_neg (List.cons_ne_nil _ _)]
  simp only [List.headD_cons, List.length_range']
  rw [hnoop]

/-- A header row with date cells at columns 3 and 5 only (a gap at 4). -/
def exC9 : Worksheet :=
  { cells := fun r c =>
      if r = 5 ∧ c = 3 then .dt ⟨2024, 2, 4⟩
      else if r = 5 ∧ c = 5 then .dt ⟨2024, 2, 11⟩
      else .empty,
    maxRow := 6, maxCol := 6 }

/-- Witness for C9 on `exC9` with three Sundays: the gap column 4 is filled
(final bookkeeping list [3,4,5,7] contains the needed [3,4,5]). -/
theorem c9_gap_fill_covers_witness :
    4 ∈ ((List.range' 3 ex3Sundays.length).foldl fillGapStep (exC9, 3 :: [5])).2 ∧
    ((List.range' 3 ex3Sundays.length).foldl fillGapStep (exC9, 3 :: [5])).2 = [3, 4, 5, 7] := by
  have h := c9_gap_fill_covers exC9 ex3Sundays (by decide) 3 [5] (by decide)
  exact ⟨h.1 4 (by decide), by decide⟩

/-! ## The per-sheet soft skip -/

theorem updateMonthLabel_cells_header (ws : Worksheet) (monthName : String) (c : Nat) :
    (updateMonthLabel ws monthName).cells headerRowIndex c = ws.cells headerRowIndex c := by
  show (if 1 ≤ headerRowIndex ∧ headerRowIndex ≤ 3 ∧ 1 ≤ c ∧ c ≤ ws.maxCol ∧
          (match ws.cells headerRowIndex c with
           | .str s => strHas (normalizeStr s) "mes"
           | _ => false) = true then
        CellValue.str ("Mês: " ++ monthName)
      else ws.cells headerRowIndex c) = ws.cells headerRowIndex c
  rw [if_neg]
  rintro ⟨-, h2, -⟩
  norm_num [headerRowIndex] at h2

theorem headerDateCols_updateMonthLabel (ws : Worksheet) (monthName : String) :
    headerDateCols (updateMonthLabel ws monthName) = headerDateCols ws := by
  unfold headerDateCols
  refine List.filter_congr (fun c hc => ?_)
  rw [updateMonthLabel_cells_header]

/-- C6 — on a sheet whose header row holds no date-typed cell, the aligner
returns the empty column list (no error), and `process_sheet` performs only
the month-label update: no roster, section, or birthday step runs.
(Lines 180-183 and 316-327.) -/
theorem c6_soft_skip (ws : Worksheet) (sundays : List Date) (monthName : String)
    (targetMonth : Nat) (h : headerDateCols ws = []) :
    (updateHeaderDates (updateMonthLabel ws monthName) sundays).2 = [] ∧
    processSheet ws sundays monthName targetMonth = updateMonthLabel ws monthName := by
  have h2 : headerDateCols (updateMonthLabel ws monthName) = [] := by
    rw [headerDateCols_updateMonthLabel, h]
  have hens : ensureDateCols (updateMonthLabel ws monthName) sundays
      = (updateMonthLabel ws monthName, []) := by
    unfold ensureDateCols
    rw [h2]
    rfl
  have hupd : updateHeaderDates (updateMonthLabel ws monthName) sundays
      = (updateMonthLabel ws monthName, []) := by
    simp only [updateHeaderDates, hens]
  refine ⟨by rw [hupd], ?_⟩
  simp only [processSheet, hupd]
  rw [if_pos trivial]

/-- Witness for C6: `exC4`'s header row (row 5) has no date cells, so the
sheet is soft-skipped. -/
theorem c6_soft_skip_witness :
    (updateHeaderDates (updateMonthLabel exC4 "Março") ex3Sundays).2 = [] :=
  (c6_soft_skip exC4 ex3Sundays "Março" 3 (by decide)).1

/-! ## Row-wise write/read lemmas and other helpers for the aligner -/

/-- The values of row `row` at columns `col0, …, col0 + count - 1`. -/
def readRowRange (ws : Worksheet) (row col0 count : Nat) : List CellValue :=
  (List.range' col0 count).map (fun c => ws.cells row c)

theorem writeRowVals_untouched :
    ∀ (vals : List CellValue) (ws : Worksheet) (row col0 r c : Nat),
      (r ≠ row ∨ c < col0 ∨ col0 + vals.length ≤ c) →
      (writeRowVals ws row col0 vals).cells r c = ws.cells r c
  | [], ws, row, col0, r, c, _ => rfl
  | v :: rest, ws, row, col0, r, c, h => by
    rw [writeRowVals,
      writeRowVals_untouched rest _ row (col0 + 1) r c (by
        rcases h with h | h | h
        · exact Or.inl h
        · exact Or.inr (Or.inl (by omega))
        · exact Or.inr (Or.inr (by simp only [List.length_cons] at h; omega)))]
    show (if r = row ∧ c = col0 then v else ws.cells r c) = ws.cells r c
    rw [if_neg]
    rintro ⟨rfl, rfl⟩
    rcases h with h | h | h
    · exact h rfl
    · omega
    · simp only [List.length_cons] at h; omega

theorem readRowRange_writeRowVals :
    ∀ (vals : List CellValue) (ws : Worksheet) (row col0 : Nat),
      readRowRange (writeRowVals ws row col0 vals) row col0 vals.length = vals
  | [], ws, row, col0 => rfl
  | v :: rest, ws, row, col0 => by
    rw [writeRowVals]
    show readRowRange _ row col0 (rest.length + 1) = v :: rest
    unfold readRowRange
    rw [List.range'_succ, List.map_cons]
    congr 1
    · rw [writeRowVals_untouched rest _ row (col0 + 1) row col0 (Or.inr (Or.inl (by omega)))]
      show (if row = row ∧ col0 = col0 then v else ws.cells row col0) = v
      rw [if_pos ⟨rfl, rfl⟩]
    · exact readRowRange_writeRowVals rest _ row (col0 + 1)

theorem writeRowVals_read :
    ∀ (vals : List CellValue) (ws : Worksheet) (row col0 i : Nat), i < vals.length →
      (writeRowVals ws row col0 vals).cells row (col0 + i) = vals.getD i CellValue.empty
  | [], _, _, _, i, h => absurd h (by simp)
  | v :: rest, ws, row, col0, 0, _ => by
    rw [writeRowVals,
      writeRowVals_untouched rest _ row (col0 + 1) row (col0 + 0) (Or.inr (Or.inl (by omega)))]
    show (if row = row ∧ col0 + 0 = col0 then v else ws.cells row (col0 + 0)) = _
    rw [if_pos ⟨rfl, Nat.add_zero col0⟩]
    rfl
  | v :: rest, ws, row, col0, i + 1, h => by
    rw [writeRowVals, show col0 + (i + 1) = (col0 + 1) + i by omega,
      writeRowVals_read rest _ row (col0 + 1) i (by simpa using h), List.getD_cons_succ]

theorem writeRowVals_maxCol :
    ∀ (vals : List CellValue) (ws : Worksheet) (row col0 : Nat),
      (writeRowVals ws row col0 vals).maxCol = ws.maxCol
  | [], _, _, _ => rfl
  | v :: rest, ws, row, col0 => writeRowVals_maxCol rest _ row (col0 + 1)

/-- The blanking fold of `clear_extra_header_columns`, described cellwise. -/
theorem clearFold_cells :
    ∀ (P : List Nat) (ws : Worksheet) (r c : Nat),
      (P.foldl (fun w c => setCell w headerRowIndex c (CellValue.str "")) ws).cells r c
        = if r = headerRowIndex ∧ c ∈ P then CellValue.str "" else ws.cells r c
  | [], ws, r, c => by simp
  | p :: P', ws, r, c => by
    rw [List.foldl_cons, clearFold_cells P' _ r c]
    by_cases hP : r = headerRowIndex ∧ c ∈ P'
    · rw [if_pos hP, if_pos ⟨hP.1, List.mem_cons_of_mem p hP.2⟩]
    · rw [if_neg hP]
      show (if r = headerRowIndex ∧ c = p then CellValue.str "" else ws.cells r c) = _
      by_cases hp : r = headerRowIndex ∧ c = p
      · rw [if_pos hp, if_pos ⟨hp.1, by rw [hp.2]; exact List.mem_cons_self p P'⟩]
      · rw [if_neg hp, if_neg]
        rintro ⟨h5, hmem⟩
        rcases List.mem_cons.mp hmem with rfl | hmem'
        · exact hp ⟨h5, rfl⟩
        · exact hP ⟨h5, hmem'⟩

theorem clearFold_maxCol :
    ∀ (P : List Nat) (ws : Worksheet),
      (P.foldl (fun w c => setCell w headerRowIndex c (CellValue.str "")) ws).maxCol = ws.maxCol
  | [], _ => rfl
  | p :: P', ws => clearFold_maxCol P' _

theorem foldl_max_range' :
    ∀ (n a i : Nat), List.foldl max i (List.range' a n) = if n = 0 then i else max i (a + n - 1)
  | 0, a, i => rfl
  | n + 1, a, i => by
    rw [List.range'_succ, List.foldl_cons, foldl_max_range' n (a + 1) (max i a)]
    cases n with
    | zero => simp
    | succ k =>
      rw [if_neg (by omega), if_neg (by omega)]
      have h1 : a + 1 + (k + 1) - 1 = a + (k + 1 + 1) - 1 := by omega
      rw [h1, max_assoc, Nat.max_eq_right (show a ≤ a + (k + 1 + 1) - 1 by omega)]

theorem getLastD_range' :
    ∀ (n a d : Nat), (List.range' a (n + 1)).getLastD d = a + n
  | 0, a, d => rfl
  | n + 1, a, d => by
    rw [List.range'_succ, List.getLastD_cons, getLastD_range' n (a + 1) a]
    omega

/-- On a list of map-`dt` values, any in-range `getD` read is date-typed. -/
theorem isDateCell_getD_map :
    ∀ (l : List Date) (i : Nat), i < l.length →
      isDateCell ((l.map CellValue.dt).getD i CellValue.empty) = true
  | [], i, h => by simp at h
  | d :: t, 0, _ => rfl
  | d :: t, i + 1, h => by
    rw [List.map_cons, List.getD_cons_succ]
    exact isDateCell_getD_map t i (by simpa using h)

theorem foldl_fillGap_noop :
    ∀ (L : List Nat) (ws : Worksheet) (ex : List Nat),
      (∀ c ∈ L, c ∈ ex) → L.foldl fillGapStep (ws, ex) = (ws, ex)
  | [], _, _, _ => rfl
  | c :: t, ws, ex, h => by
    rw [List.foldl_cons,
      show fillGapStep (ws, ex) c = (ws, ex) by
        unfold fillGapStep
        rw [if_pos (h c (List.mem_cons_self c t))]]
    exact foldl_fillGap_noop t ws ex (fun c' hc' => h c' (List.mem_cons_of_mem c hc'))

/-! ## The aligned-sheet facts for `update_header_dates` -/

theorem range'_ne_nil_of_pos (a n : Nat) (h : 0 < n) : List.range' a n ≠ [] := by
  obtain ⟨k, rfl⟩ : ∃ k, n = k + 1 := ⟨n - 1, by omega⟩
  rw [List.range'_succ]
  exact List.cons_ne_nil _ _

theorem headD_range' (a n d : Nat) (h : 0 < n) : (List.range' a n).headD d = a := by
  obtain ⟨k, rfl⟩ : ∃ k, n = k + 1 := ⟨n - 1, by omega⟩
  rw [List.range'_succ]
  rfl

/-- On a sheet whose header-row date cells are exactly the block
`first, …, first + n - 1`, the `existing_cols` scan returns that block. -/
theorem headerDateCols_eq_range (ws : Worksheet) (first n : Nat)
    (hfirst : 1 ≤ first) (hlast : first + n - 1 ≤ ws.maxCol) (hpos : 0 < n)
    (hblock : ∀ c, first ≤ c → c < first + n →
      isDateCell (ws.cells headerRowIndex c) = true)
    (hout : ∀ c, isDateCell (ws.cells headerRowIndex c) = true →
      first ≤ c ∧ c < first + n) :
    headerDateCols ws = List.range' first n := by
  unfold headerDateCols
  have hA : ws.maxCol = ((ws.maxCol - (first + n - 1)) + n) + (first - 1) := by omega
  rw [hA, ← List.range'_append 1 (first - 1) ((ws.maxCol - (first + n - 1)) + n) 1,
    show 1 + 1 * (first - 1) = first by omega,
    ← List.range'_append first n (ws.maxCol - (first + n - 1)) 1,
    show first + 1 * n = first + n by omega,
    List.filter_append, List.filter_append]
  rw [List.filter_eq_nil_iff.mpr (fun a ha => by
      obtain ⟨i, hi, rfl⟩ := List.mem_range'.mp ha
      intro hcontra
      have := hout _ hcontra
      omega),
    List.filter_eq_self.mpr (fun a ha => by
      obtain ⟨i, hi, rfl⟩ := List.mem_range'.mp ha
      exact hblock _ (by omega) (by omega)),
    List.filter_eq_nil_iff.mpr (fun a ha => by
      obtain ⟨i, hi, rfl⟩ := List.mem_range'.mp ha
      intro hcontra
      have := hout _ hcontra
      omega)]
  simp

/-- On an aligned sheet `ensure_date_columns` inserts nothing. -/
theorem ensureDateCols_aligned (ws : Worksheet) (sundays : List Date) (first : Nat)
    (hpos : 0 < sundays.length)
    (hcols : headerDateCols ws = List.range' first sundays.length) :
    ensureDateCols ws sundays = (ws, List.range' first sundays.length) := by
  simp only [ensureDateCols, hcols]
  rw [if_neg (range'_ne_nil_of_pos first sundays.length hpos),
    headD_range' first sundays.length 0 hpos]
  rw [foldl_fillGap_noop _ _ _ (fun c hc => hc)]
  simp only [List.length_range']
  rw [appendLoop_noop sundays.length ws (List.range' first sundays.length)
    (by simp)]

/-- C3 — running the Date-Column Aligner on a sheet already aligned to
`sundays` (header date cells are exactly the `len(sundays)` contiguous
columns from `first`, holding the Sunday values) leaves the number of
date-typed header columns unchanged and the header block equal to the
DateSet. (Lines 180-234.) -/
theorem c3_aligner_idempotent (ws : Worksheet) (sundays : List Date) (first : Nat)
    (hpos : 0 < sundays.length) (hfirst : 1 ≤ first)
    (hlast : first + sundays.length - 1 ≤ ws.maxCol)
    (hblock : ∀ i, i < sundays.length →
        ws.cells headerRowIndex (first + i) = CellValue.dt (sundays.getD i ⟨0, 0, 0⟩))
    (hout : ∀ c, isDateCell (ws.cells headerRowIndex c) = true →
        first ≤ c ∧ c < first + sundays.length) :
    (headerDateCols (updateHeaderDates ws sundays).1).length
      = (headerDateCols ws).length ∧
    readRowRange (updateHeaderDates ws sundays).1 headerRowIndex first sundays.length
      = sundays.map CellValue.dt ∧
    (updateHeaderDates ws sundays).2 = List.range' first sundays.length := by
  have hblock' : ∀ c, first ≤ c → c < first + sundays.length →
      isDateCell (ws.cells headerRowIndex c) = true := by
    intro c h1 h2
    have := hblock (c - first) (by omega)
    rw [show first + (c - first) = c by omega] at this
    rw [this]
    rfl
  have hcols := headerDateCols_eq_range ws first sundays.length hfirst hlast hpos hblock' hout
  have hens := ensureDateCols_aligned ws sundays first hpos hcols
  -- Unfold `update_header_dates` on the aligned sheet.
  obtain ⟨k, hk⟩ : ∃ k, sundays.length = k + 1 := ⟨sundays.length - 1, by omega⟩
  have hcons : List.range' first sundays.length = first :: List.range' (first + 1) k := by
    rw [hk, List.range'_succ]
  -- The successive sheets: after the date writes, after the trailing clear.
  set ws1 := writeRowVals ws headerRowIndex first (sundays.map CellValue.dt) with hws1
  set P := (List.range' (first + sundays.length - 1 + 1)
      (ws1.maxCol + 1 - (first + sundays.length - 1))).takeWhile
      (fun c => !(ws1.cells headerRowIndex c == CellValue.empty
                  || ws1.cells headerRowIndex c == CellValue.str "")) with hP
  set ws2 := P.foldl (fun w c => setCell w headerRowIndex c (CellValue.str "")) ws1 with hws2
  have hmaxT : (List.range' first sundays.length).foldl max 0
      = first + sundays.length - 1 := by
    rw [foldl_max_range' sundays.length first 0, if_neg (by omega)]
    omega
  have hclear : clearExtraHeaderCols ws1 (List.range' first sundays.length) = ws2 := by
    simp only [clearExtraHeaderCols, hmaxT]
  have hclearcons : clearExtraHeaderCols ws1 (first :: List.range' (first + 1) k) = ws2 := by
    rw [← hcons]
    exact hclear
  have hgl : (first :: List.range' (first + 1) k).getLastD 0 = first + k := by
    cases k with
    | zero => rfl
    | succ j =>
      rw [List.getLastD_cons, getLastD_range' j (first + 1) first]
      omega
  have hunf : updateHeaderDates ws sundays
      = (ensureColumnStyle ws2
          (if (first :: List.range' (first + 1) k).length ≥ 2 then
            ((first :: List.range' (first + 1) k)[(first :: List.range' (first + 1) k).length - 2]?).getD 0
          else first + k)
          (first + k),
         first :: List.range' (first + 1) k) := by
    simp only [updateHeaderDates, hens]
    rw [hcons]
    show (ensureColumnStyle
        (clearExtraHeaderCols (writeRowVals ws headerRowIndex first (sundays.map CellValue.dt))
          (first :: List.range' (first + 1) k))
        (if (first :: List.range' (first + 1) k).length ≥ 2 then
          ((first :: List.range' (first + 1) k)[(first :: List.range' (first + 1) k).length - 2]?).getD 0
        else (first :: List.range' (first + 1) k).getLastD 0)
        ((first :: List.range' (first + 1) k).getLastD 0),
       first :: List.range' (first + 1) k) = _
    rw [← hws1, hclearcons, hgl]
  -- Cell-level facts about `ws2`.
  have hc2c1 : ∀ c, c < first + sundays.length →
      ws2.cells headerRowIndex c = ws1.cells headerRowIndex c := by
    intro c hc
    rw [hws2, clearFold_cells]
    rw [if_neg]
    rintro ⟨-, hmem⟩
    rw [hP] at hmem
    have hx := (List.takeWhile_sublist _).mem hmem
    obtain ⟨i, hi, rfl⟩ := List.mem_range'.mp hx
    omega
  have hcell1read : ∀ i, i < sundays.length →
      ws1.cells headerRowIndex (first + i) = (sundays.map CellValue.dt).getD i CellValue.empty := by
    intro i hi
    rw [hws1]
    exact writeRowVals_read (sundays.map CellValue.dt) ws headerRowIndex first i
      (by simpa using hi)
  have hblock2 : ∀ c, first ≤ c → c < first + sundays.length →
      isDateCell (ws2.cells headerRowIndex c) = true := by
    intro c h1 h2
    rw [hc2c1 c h2, show c = first + (c - first) by omega, hcell1read (c - first) (by omega)]
    exact isDateCell_getD_map sundays (c - first) (by omega)
  have hout2 : ∀ c, isDateCell (ws2.cells headerRowIndex c) = true →
      first ≤ c ∧ c < first + sundays.length := by
    intro c hdate
    rw [hws2, clearFold_cells] at hdate
    by_cases hmem : headerRowIndex = headerRowIndex ∧ c ∈ P
    · rw [if_pos hmem] at hdate
      exact Bool.noConfusion hdate
    · rw [if_neg hmem] at hdate
      by_cases hin : first ≤ c ∧ c < first + sundays.length
      · exact hin
      · rw [hws1, writeRowVals_untouched _ _ _ _ _ _ (by
            rcases Nat.lt_or_ge c first with hlt | hge
            · exact Or.inr (Or.inl hlt)
            · refine Or.inr (Or.inr ?_)
              rw [List.length_map]
              have : first + sundays.length ≤ c := by
                by_contra hlt2
                exact hin ⟨hge, by omega⟩
              exact this)] at hdate
        exact absurd (hout c hdate) hin
  have hmaxc2 : ws2.maxCol = ws.maxCol := by
    rw [hws2, clearFold_maxCol, hws1, writeRowVals_maxCol]
  have hmax' : ∀ pc, (ensureColumnStyle ws2 pc (first + k)).maxCol = ws.maxCol := by
    intro pc
    show max ws2.maxCol (first + k) = ws.maxCol
    rw [hmaxc2]
    exact Nat.max_eq_left (by omega)
  refine ⟨?_, ?_, ?_⟩
  · rw [hunf]
    dsimp only
    rw [headerDateCols_eq_range
        (ensureColumnStyle ws2
          (if (first :: List.range' (first + 1) k).length ≥ 2 then
            ((first :: List.range' (first + 1) k)[(first :: List.range' (first + 1) k).length - 2]?).getD 0
          else first + k)
          (first + k))
        first sundays.length hfirst
        (by rw [hmax']; omega) hpos
        (fun c h1 h2 => hblock2 c h1 h2) (fun c hd => hout2 c hd),
      hcols]
  · rw [hunf]
    show readRowRange ws2 headerRowIndex first sundays.length = sundays.map CellValue.dt
    have h1 : readRowRange ws2 headerRowIndex first sundays.length
        = readRowRange ws1 headerRowIndex first sundays.length := by
      unfold readRowRange
      refine List.map_congr_left (fun c hc => ?_)
      obtain ⟨i, hi, rfl⟩ := List.mem_range'.mp hc
      exact hc2c1 _ (by omega)
    rw [h1, hws1]
    have h2 := readRowRange_writeRowVals (sundays.map CellValue.dt) ws headerRowIndex first
    rwa [List.length_map] at h2
  · rw [hunf]
    show first :: List.range' (first + 1) k = List.range' first sundays.length
    exact hcons.symm

/-- A sheet already aligned to two Sundays at header columns 2-3. -/
def exC3 : Worksheet :=
  { cells := fun r c =>
      if r = 5 ∧ c = 2 then .dt ⟨2024, 3, 3⟩
      else if r = 5 ∧ c = 3 then .dt ⟨2024, 3, 10⟩
      else .empty,
    maxRow := 6, maxCol := 4 }

def exC3Sundays : List Date := [⟨2024, 3, 3⟩, ⟨2024, 3, 10⟩]

/-- Witness for C3 on the aligned sheet `exC3`. -/
theorem c3_aligner_idempotent_witness :
    (headerDateCols (updateHeaderDates exC3 exC3Sundays).1).length
      = (headerDateCols exC3).length ∧
    readRowRange (updateHeaderDates exC3 exC3Sundays).1 headerRowIndex 2 exC3Sundays.length
      = exC3Sundays.map CellValue.dt := by
  have h := c3_aligner_idempotent exC3 exC3Sundays 2 (by decide) (by decide) (by decide)
    (by decide)
    (by
      intro c hc
      by_cases h2 : c = 2
      · subst h2
        exact ⟨by omega, by decide⟩
      · by_cases h3 : c = 3
        · subst h3
          exact ⟨by omega, by decide⟩
        · exfalso
          have hcell : exC3.cells headerRowIndex c = CellValue.empty := by
            show (if headerRowIndex = 5 ∧ c = 2 then CellValue.dt ⟨2024, 3, 3⟩
                  else if headerRowIndex = 5 ∧ c = 3 then CellValue.dt ⟨2024, 3, 10⟩
                  else CellValue.empty) = CellValue.empty
            rw [if_neg (by tauto), if_neg (by tauto)]
          rw [hcell] at hc
          exact Bool.noConfusion hc)
  exact ⟨h.1, h.2.1⟩

/-! ## Configuration validation -/

instance {ε α : Type} [DecidableEq ε] [DecidableEq α] : DecidableEq (Except ε α) :=
  fun x y =>
    match x, y with
    | .error a, .error b =>
      if h : a = b then isTrue (by rw [h]) else isFalse (fun hc => h (Except.error.inj hc))
    | .ok a, .ok b =>
      if h : a = b then isTrue (by rw [h]) else isFalse (fun hc => h (Except.ok.inj hc))
    | .error _, .ok _ => isFalse (fun hc => Except.noConfusion hc)
    | .ok _, .error _ => isFalse (fun hc => Except.noConfusion hc)

set_option maxHeartbeats 1000000 in
theorem portugueseMonths_isSome (n : Int) :
    (portugueseMonths n).isSome = true ↔ 1 ≤ n ∧ n ≤ 12 := by
  unfold portugueseMonths
  split_ifs <;>
    first
      | exact iff_of_true rfl (by omega)
      | exact iff_of_false (by simp) (by omega)

/-- The error conditions of `load_config` that surface as `ValueError`:
a missing required field, a non-numeric year or month, a month outside 1-12,
or — via the caught `TypeError` of `Path` on line 66 — a present but
non-string `source_file`. -/
def configRejected (data : ConfigJson) : Prop :=
  data.source_file = none ∨ data.target_year = none ∨ data.target_month = none ∨
  (∃ v, data.source_file = some v ∧ pyPathOf v = none) ∨
  (∃ v, data.target_year = some v ∧ pyIntOf v = none) ∨
  (∃ v, data.target_month = some v ∧ pyIntOf v = none) ∨
  (∃ v n, data.target_month = some v ∧ pyIntOf v = some n ∧ ¬(1 ≤ n ∧ n ≤ 12))

/-- C7 (amended) — `load_config` raises `ValueError` exactly on the
conditions of `configRejected` (which, beyond the claim's list, include a
present-but-non-string `source_file`, whose `Path` `TypeError` line 71
re-raises as `ValueError`); and any `load_config` error is raised before any
sheet is processed: the run produces no workbook. A non-string
`output_directory` raises an uncaught `TypeError`, not a `ValueError`.
(Lines 61-83 and 364-368.) -/
theorem c7_config_validation (configPath : PyPath) (data : ConfigJson) :
    ((∃ msg, loadConfig configPath data = Except.error (PyErr.valueError msg))
      ↔ configRejected data) ∧
    (∀ e, loadConfig configPath data = Except.error e →
      ∀ sheets, runGeneration configPath data sheets = Except.error e) := by
  constructor
  · rcases hsf : data.source_file with _ | sv
    · exact iff_of_true
        ⟨"Configuração incompleta: campo ausente source_file.",
          by simp only [loadConfig, hsf]⟩
        (Or.inl hsf)
    · rcases hpv : pyPathOf sv with _ | sraw
      · exact iff_of_true
          ⟨"Ano e mês precisam ser numéricos.", by simp only [loadConfig, hsf, hpv]⟩
          (Or.inr (Or.inr (Or.inr (Or.inl ⟨sv, hsf, hpv⟩))))
      · rcases hty : data.target_year with _ | yv
        · exact iff_of_true
            ⟨"Configuração incompleta: campo ausente target_year.",
              by simp only [loadConfig, hsf, hpv, hty]⟩
            (Or.inr (Or.inl hty))
        · rcases hyi : pyIntOf yv with _ | y
          · exact iff_of_true
              ⟨"Ano e mês precisam ser numéricos.",
                by simp only [loadConfig, hsf, hpv, hty, hyi]⟩
              (Or.inr (Or.inr (Or.inr (Or.inr (Or.inl ⟨yv, hty, hyi⟩)))))
          · rcases htm : data.target_month with _ | mv
            · exact iff_of_true
                ⟨"Configuração incompleta: campo ausente target_month.",
                  by simp only [loadConfig, hsf, hpv, hty, hyi, htm]⟩
                (Or.inr (Or.inr (Or.inl htm)))
            · rcases hmi : pyIntOf mv with _ | mo
              · exact iff_of_true
                  ⟨"Ano e mês precisam ser numéricos.",
                    by simp only [loadConfig, hsf, hpv, hty, hyi, htm, hmi]⟩
                  (Or.inr (Or.inr (Or.inr (Or.inr (Or.inr (Or.inl ⟨mv, htm, hmi⟩))))))
              · by_cases hrange : (portugueseMonths mo).isSome = true
                · refine iff_of_false ?_ ?_
                  · rintro ⟨msg, hmsg⟩
                    simp only [loadConfig, hsf, hpv, hty, hyi, htm, hmi,
                      if_pos hrange] at hmsg
                    rcases hod : data.output_directory with _ | ov
                    · simp only [hod] at hmsg
                      exact Except.noConfusion hmsg
                    · simp only [hod] at hmsg
                      rcases hov : pyPathOf ov with _ | oraw
                      · simp only [hov] at hmsg
                        exact PyErr.noConfusion (Except.error.inj hmsg)
                      · simp only [hov] at hmsg
                        exact Except.noConfusion hmsg
                  · have hmo := (portugueseMonths_isSome mo).mp hrange
                    intro hrej
                    rcases hrej with h | h | h | ⟨v, hv, hpv'⟩ | ⟨v, hv, hiv'⟩
                      | ⟨v, hv, hiv'⟩ | ⟨v, n, hv, hiv', hr⟩
                    · rw [hsf] at h; exact Option.noConfusion h
                    · rw [hty] at h; exact Option.noConfusion h
                    · rw [htm] at h; exact Option.noConfusion h
                    · rw [hsf] at hv
                      rw [← Option.some.inj hv, hpv] at hpv'
                      exact Option.noConfusion hpv'
                    · rw [hty] at hv
                      rw [← Option.some.inj hv, hyi] at hiv'
                      exact Option.noConfusion hiv'
                    · rw [htm] at hv
                      rw [← Option.some.inj hv, hmi] at hiv'
                      exact Option.noConfusion hiv'
                    · rw [htm] at hv
                      rw [← Option.some.inj hv, hmi] at hiv'
                      rw [← Option.some.inj hiv'] at hr
                      exact hr hmo
                · exact iff_of_true
                    ⟨"Mês deve estar entre 1 e 12.",
                      by
                        simp only [loadConfig, hsf, hpv, hty, hyi, htm, hmi]
                        rw [if_neg hrange]⟩
                    (Or.inr (Or.inr (Or.inr (Or.inr (Or.inr (Or.inr
                      ⟨mv, mo, htm, hmi, fun hc =>
                        hrange ((portugueseMonths_isSome mo).mpr hc)⟩))))))
  · intro e he sheets
    simp only [runGeneration, he]

/-- A config whose `source_file` is a JSON number: it passes the claim's
three checks (no missing field, numeric year/month, month in 1-12) yet
`load_config` raises `ValueError`. -/
def c7BadConfig : ConfigJson :=
  ⟨some (.jnum 42), some (.jnum 2024), some (.jnum 3), none⟩

def exCfgPath : PyPath := ⟨true, ["cfg", "config.json"]⟩

/-- Counterexample to C7 as stated: `c7BadConfig` has every required field,
a numeric year and month, and a month within 1-12, and still `load_config`
raises `ValueError` (the `Path` `TypeError` re-raised by line 71). -/
theorem c7_counterexample :
    c7BadConfig.source_file ≠ none ∧ c7BadConfig.target_year ≠ none ∧
    c7BadConfig.target_month ≠ none ∧
    pyIntOf (Json.jnum 2024) = some 2024 ∧ pyIntOf (Json.jnum 3) = some 3 ∧
    (1 ≤ (3 : Int) ∧ (3 : Int) ≤ 12) ∧
    loadConfig exCfgPath c7BadConfig
      = Except.error (PyErr.valueError "Ano e mês precisam ser numéricos.") := by
  decide

/-- Witness for the amended C7: a config with a missing `source_file` makes
the whole run fail before any sheet is touched. -/
theorem c7_config_validation_witness :
    runGeneration exCfgPath ⟨none, some (.jnum 2024), some (.jnum 3), none⟩ []
      = Except.error (PyErr.valueError
          "Configuração incompleta: campo ausente source_file.") :=
  (c7_config_validation exCfgPath ⟨none, some (.jnum 2024), some (.jnum 3), none⟩).2
    _ (by decide) []

/-! ## The output-directory default (C8) -/

def c8Data : ConfigJson :=
  ⟨some (.jstr "data/base.xlsx"), some (.jnum 2024), some (.jnum 3), none⟩

def c8Cfg : Config :=
  ⟨⟨true, ["cfg", "data", "base.xlsx"]⟩, 2024, 3, ⟨true, ["cfg"]⟩⟩

/-- C8 — with `output_directory` omitted, the run's output directory is the
**config file's** directory (`(base_dir / ".").resolve()`, line 80-81), not
the source file's directory: for a source in a subdirectory they differ.
This contradicts the module docstring ("ou o diretório do arquivo de
origem"), so the code, not the claim, is at fault. (Lines 77-83, 344-348.) -/
theorem c8_output_dir_is_config_dir :
    loadConfig exCfgPath c8Data = Except.ok c8Cfg ∧
    runOutputDir c8Cfg = parentPath exCfgPath ∧
    parentPath c8Cfg.source_file = ⟨true, ["cfg", "data"]⟩ ∧
    runOutputDir c8Cfg ≠ parentPath c8Cfg.source_file := by
  decide

end GeraPlanilha
